import Mathlib

/-!
Verification of the veritas extraction-and-validation pipeline
(backend/app/services): the response normalizer, the direct audit engine,
the coordinate post-processing, the Excel cell-inventory builder, the
importance scorer and the workbook synthesizer, shallowly embedded from
the Python source.  Machine floats are modelled by exact rationals,
Python dicts by association lists, and a raised exception by the error
branch of `Except`.
-/

namespace Veritas

/-! ### Characters and Python string helpers -/

/-- The opening curly brace character (written via its code point). -/
def lcurl : Char := Char.ofNat 123

/-- The closing curly brace character (written via its code point). -/
def rcurl : Char := Char.ofNat 125

/-- The single-quote character. -/
def squote : Char := Char.ofNat 39

/-- The double-quote character. -/
def dquote : Char := Char.ofNat 34

/-- Whitespace for Python `str.strip()`: space, tab, newline, carriage
return, vertical tab, form feed. -/
def pyIsSpace (c : Char) : Bool :=
  c = ' ' || c = '\t' || c = '\n' || c = '\r' || c = Char.ofNat 11 || c = Char.ofNat 12

/-- Python `str.strip()` on a character list. -/
def pyStrip (s : List Char) : List Char :=
  ((s.dropWhile pyIsSpace).reverse.dropWhile pyIsSpace).reverse

/-- Whitespace class of Python's `re` module (`\s`), same set as
`str.strip()` whitespace for ASCII text. -/
def reIsSpace (c : Char) : Bool := pyIsSpace c

/-! ### JSON values

Python `json.loads` produces dicts, lists, strings, numbers (int/float),
booleans and `None`.  Numbers are modelled exactly by rationals; dicts by
association lists in insertion order. -/

inductive Json where
  | jnull : Json
  | jbool (b : Bool) : Json
  | jnum (q : ℚ) : Json
  | jstr (s : String) : Json
  | jarr (items : List Json) : Json
  | jobj (fields : List (String × Json)) : Json
deriving Repr

/-- A Python dict with string keys, as produced by `json.loads` and used
throughout the services. -/
abbrev Dict := List (String × Json)

/-- Dict lookup (`d[k]` / `d.get(k)`); keys are unique by construction so
first match suffices. -/
def dictGet : Dict → String → Option Json
  | [], _ => none
  | (k, v) :: rest, key => if k = key then some v else dictGet rest key

/-- Python `d.get(k, default)`. -/
def dictGetD (d : Dict) (key : String) (dflt : Json) : Json :=
  (dictGet d key).getD dflt

/-- Python `dict` insertion semantics: replace the value in place when the
key exists, else append. -/
def dictInsert (d : Dict) (key : String) (v : Json) : Dict :=
  if d.any (fun kv => kv.1 = key) then
    d.map (fun kv => if kv.1 = key then (key, v) else kv)
  else
    d ++ [(key, v)]

/-- Python `d.update(extra)`: left-to-right insertion of every pair. -/
def dictUpdate (d : Dict) (extra : Dict) : Dict :=
  extra.foldl (fun acc kv => dictInsert acc kv.1 kv.2) d

/-- Lookup on a `Json` value that is expected to be an object. -/
def objLookup (j : Json) (key : String) : Option Json :=
  match j with
  | .jobj kvs => dictGet kvs key
  | _ => none

/-! ### A model of Python `json.loads`

Strict JSON grammar: the same acceptance behaviour as the CPython `json`
module on ASCII input (strict strings, no trailing garbage, `NaN`-style
extensions omitted — the repaired LLM payloads never contain them).
Recursion is bounded by explicit fuel; `2 * length + 2` steps always
suffice because every other recursive call consumes at least one
character. -/

/-- JSON structural whitespace. -/
def jsonWs (c : Char) : Bool :=
  c = ' ' || c = '\t' || c = '\n' || c = '\r'

/-- Digit run to a natural number (most significant first). -/
def digitsToNat (ds : List Char) : Nat :=
  ds.foldl (fun acc c => acc * 10 + (c.toNat - 48)) 0

/-- Hex digit value, if any. -/
def hexVal (c : Char) : Option Nat :=
  if c.isDigit then some (c.toNat - 48)
  else if 'a' ≤ c ∧ c ≤ 'f' then some (c.toNat - 87)
  else if 'A' ≤ c ∧ c ≤ 'F' then some (c.toNat - 55)
  else none

/-- Parse the body of a JSON string after the opening quote, decoding
escapes; strict mode rejects raw control characters. -/
def parseStringBody (fuel : Nat) (s : List Char) (acc : List Char) :
    Option (String × List Char) :=
  match fuel, s with
  | 0, _ => none
  | _, [] => none
  | fuel + 1, c :: rest =>
    if c = dquote then some (String.mk acc.reverse, rest)
    else if c = '\\' then
      match rest with
      | [] => none
      | e :: rest2 =>
        if e = dquote then parseStringBody fuel rest2 (dquote :: acc)
        else if e = '\\' then parseStringBody fuel rest2 ('\\' :: acc)
        else if e = '/' then parseStringBody fuel rest2 ('/' :: acc)
        else if e = 'b' then parseStringBody fuel rest2 (Char.ofNat 8 :: acc)
        else if e = 'f' then parseStringBody fuel rest2 (Char.ofNat 12 :: acc)
        else if e = 'n' then parseStringBody fuel rest2 ('\n' :: acc)
        else if e = 'r' then parseStringBody fuel rest2 ('\r' :: acc)
        else if e = 't' then parseStringBody fuel rest2 ('\t' :: acc)
        else if e = 'u' then
          match rest2 with
          | h1 :: h2 :: h3 :: h4 :: rest3 =>
            match hexVal h1, hexVal h2, hexVal h3, hexVal h4 with
            | some a, some b, some c', some d =>
              parseStringBody fuel rest3
                (Char.ofNat (((a * 16 + b) * 16 + c') * 16 + d) :: acc)
            | _, _, _, _ => none
          | _ => none
        else none
    else if c.toNat < 32 then none
    else parseStringBody fuel rest (c :: acc)

/-- Parse a JSON number (strict grammar) returning its exact rational
value. -/
def parseNumber (s : List Char) : Option (ℚ × List Char) :=
  let (neg, s1) :=
    match s with
    | '-' :: rest => (true, rest)
    | _ => (false, s)
  match s1 with
  | [] => none
  | c :: _ =>
    if ¬ c.isDigit then none
    else
      let intDigits := if c = '0' then ['0'] else s1.takeWhile Char.isDigit
      let s2 := s1.drop intDigits.length
      let (fracDigits, s3) :=
        match s2 with
        | '.' :: rest =>
          (rest.takeWhile Char.isDigit, rest.drop (rest.takeWhile Char.isDigit).length)
        | _ => ([], s2)
      if s2 ≠ [] ∧ s2.headD ' ' = '.' ∧ fracDigits = [] then none
      else
        let (expOk, expNeg, expDigits, s4) :=
          match s3 with
          | e :: rest =>
            if e = 'e' ∨ e = 'E' then
              match rest with
              | '+' :: rest2 =>
                (!(rest2.takeWhile Char.isDigit).isEmpty, false,
                  rest2.takeWhile Char.isDigit, rest2.drop (rest2.takeWhile Char.isDigit).length)
              | '-' :: rest2 =>
                (!(rest2.takeWhile Char.isDigit).isEmpty, true,
                  rest2.takeWhile Char.isDigit, rest2.drop (rest2.takeWhile Char.isDigit).length)
              | _ =>
                (!(rest.takeWhile Char.isDigit).isEmpty, false,
                  rest.takeWhile Char.isDigit, rest.drop (rest.takeWhile Char.isDigit).length)
            else (true, false, [], s3)
          | [] => (true, false, [], s3)
        if expOk = false then none
        else
          let mant : Nat := digitsToNat (intDigits ++ fracDigits)
          let signedMant : Int := if neg then -(mant : Int) else (mant : Int)
          let expVal : Int :=
            if expDigits = [] then 0
            else if expNeg then -(digitsToNat expDigits : Int)
            else (digitsToNat expDigits : Int)
          let shift : Int := expVal - (fracDigits.length : Int)
          let q : ℚ :=
            if 0 ≤ shift then mkRat (signedMant * 10 ^ shift.toNat) 1
            else mkRat signedMant (10 ^ (-shift).toNat)
          some (q, s4)

/-- Parsing modes: a value, the items of an array after `[`, or the
members of an object after `\x7b`, with the accumulated prefix. -/
inductive PMode where
  | value : PMode
  | arrItems (acc : List Json) : PMode
  | objItems (acc : Dict) : PMode

/-- Recursive-descent core of `json.loads`. -/
def parseJsonCore (fuel : Nat) (mode : PMode) (s : List Char) :
    Option (Json × List Char) :=
  match fuel with
  | 0 => none
  | fuel + 1 =>
    match mode with
    | .value =>
      let s := s.dropWhile jsonWs
      match s with
      | [] => none
      | c :: rest =>
        if c = dquote then
          match parseStringBody (rest.length + 1) rest [] with
          | some (str, rest2) => some (.jstr str, rest2)
          | none => none
        else if c = lcurl then
          let r := rest.dropWhile jsonWs
          match r with
          | c2 :: r2 => if c2 = rcurl then some (.jobj [], r2)
                        else parseJsonCore fuel (.objItems []) r
          | [] => none
        else if c = '[' then
          let r := rest.dropWhile jsonWs
          match r with
          | c2 :: r2 => if c2 = ']' then some (.jarr [], r2)
                        else parseJsonCore fuel (.arrItems []) r
          | [] => none
        else if c = 't' then
          if ['r', 'u', 'e'].isPrefixOf rest then some (.jbool true, rest.drop 3) else none
        else if c = 'f' then
          if ['a', 'l', 's', 'e'].isPrefixOf rest then some (.jbool false, rest.drop 4) else none
        else if c = 'n' then
          if ['u', 'l', 'l'].isPrefixOf rest then some (.jnull, rest.drop 3) else none
        else
          match parseNumber s with
          | some (q, rest2) => some (.jnum q, rest2)
          | none => none
    | .arrItems acc =>
      match parseJsonCore fuel .value s with
      | none => none
      | some (v, rest) =>
        let r := rest.dropWhile jsonWs
        match r with
        | c :: r2 =>
          if c = ',' then parseJsonCore fuel (.arrItems (acc ++ [v])) r2
          else if c = ']' then some (.jarr (acc ++ [v]), r2)
          else none
        | [] => none
    | .objItems acc =>
      let s := s.dropWhile jsonWs
      match s with
      | c :: rest =>
        if c = dquote then
          match parseStringBody (rest.length + 1) rest [] with
          | some (key, rest2) =>
            let r := rest2.dropWhile jsonWs
            match r with
            | c2 :: r2 =>
              if c2 = ':' then
                match parseJsonCore fuel .value r2 with
                | some (v, rest3) =>
                  let acc2 := dictInsert acc key v
                  let r3 := rest3.dropWhile jsonWs
                  match r3 with
                  | c3 :: r4 =>
                    if c3 = ',' then parseJsonCore fuel (.objItems acc2) r4
                    else if c3 = rcurl then some (.jobj acc2, r4)
                    else none
                  | [] => none
                | none => none
              else none
            | [] => none
          | none => none
        else none
      | [] => none

/-- Model of Python `json.loads`: parse one JSON document, rejecting
trailing garbage; `none` models a raised `json.JSONDecodeError`. -/
def json_loads (s : List Char) : Option Json :=
  match parseJsonCore (2 * s.length + 2) .value s with
  | some (v, rest) => if rest.dropWhile jsonWs = [] then some v else none
  | none => none

/-! ### Response Normalizer (`enhanced_ai_service.EnhancedGeminiService`)

`_parse_gemini_json_response_robust` and its helpers, translated
step by step: markdown fence stripping, brace-depth bounding, the five
textual repairs of `_clean_json_aggressively` (each a `re.sub` pass,
modelled as the equivalent left-to-right scan), the array-recovery
strategies and the context-keyed fallback structures. -/

/-- The characters of the fence marker with language tag. -/
def fenceJsonTag : List Char := '`' :: '`' :: '`' :: 'j' :: 's' :: 'o' :: 'n' :: []

/-- The characters of a bare fence marker. -/
def fenceBare : List Char := '`' :: '`' :: '`' :: []

/-- Step 1 of `_parse_gemini_json_response_robust`: drop a leading
fenced-code marker and then a trailing one. -/
def stripMarkdownFences (s : List Char) : List Char :=
  let s1 :=
    if fenceJsonTag.isPrefixOf s then s.drop 7
    else if fenceBare.isPrefixOf s then s.drop 3
    else s
  if fenceBare.isSuffixOf s1 then s1.take (s1.length - 3) else s1

/-- Step 2: the index scan that locates the first balanced top-level
brace span (`json_start`/`json_end`/`brace_count` loop). -/
def scanBraceBounds : List Char → Nat → Option Nat → Int → Option (Nat × Nat)
  | [], _, _, _ => none
  | c :: rest, i, start, depth =>
    if c = lcurl then
      scanBraceBounds rest (i + 1) (some (start.getD i)) (depth + 1)
    else if c = rcurl then
      match start with
      | some st =>
        if depth - 1 = 0 then some (st, i)
        else scanBraceBounds rest (i + 1) (some st) (depth - 1)
      | none => scanBraceBounds rest (i + 1) none (depth - 1)
    else scanBraceBounds rest (i + 1) start depth

/-- The bounded `\x7b...\x7d` span of the cleaned text, if the scan finds
one (a missing span models the raised `ValueError`). -/
def find_json_object_span (s : List Char) : Option (List Char) :=
  match scanBraceBounds s 0 none 0 with
  | some (st, en) => some ((s.drop st).take (en - st + 1))
  | none => none

/-- Repair pass 1, `re.sub(",(\\s*[closing])", ...)`: drop a comma that
sits directly before (whitespace and) a closing brace or bracket. -/
def stripTrailingCommas (fuel : Nat) (s : List Char) : List Char :=
  match fuel, s with
  | 0, s => s
  | _, [] => []
  | fuel + 1, c :: rest =>
    if c = ',' then
      let ws := rest.takeWhile reIsSpace
      match rest.drop ws.length with
      | b :: tail =>
        if b = rcurl ∨ b = ']' then ws ++ b :: stripTrailingCommas fuel tail
        else c :: stripTrailingCommas fuel rest
      | [] => c :: stripTrailingCommas fuel rest
    else c :: stripTrailingCommas fuel rest

/-- `[a-zA-Z_]`. -/
def isIdentStart (c : Char) : Bool := c.isAlpha || c = '_'

/-- `[a-zA-Z0-9_]`. -/
def isIdentChar (c : Char) : Bool := isIdentStart c || c.isDigit

/-- Repair pass 2, quote bare object keys:
`re.sub("([open-or-comma]\\s*)([a-zA-Z_][a-zA-Z0-9_]*)\\s*:", ...)`. -/
def quoteBareKeys (fuel : Nat) (s : List Char) : List Char :=
  match fuel, s with
  | 0, s => s
  | _, [] => []
  | fuel + 1, c :: rest =>
    if c = lcurl ∨ c = ',' then
      let ws := rest.takeWhile reIsSpace
      let afterWs := rest.drop ws.length
      let ident := afterWs.takeWhile isIdentChar
      let afterIdent := afterWs.drop ident.length
      let ws2 := afterIdent.takeWhile reIsSpace
      match ident with
      | i0 :: _ =>
        if isIdentStart i0 then
          match afterIdent.drop ws2.length with
          | colon :: tail =>
            if colon = ':' then
              c :: ws ++ dquote :: ident ++ dquote :: ':' :: quoteBareKeys fuel tail
            else c :: quoteBareKeys fuel rest
          | [] => c :: quoteBareKeys fuel rest
        else c :: quoteBareKeys fuel rest
      | [] => c :: quoteBareKeys fuel rest
    else c :: quoteBareKeys fuel rest

/-- Repair pass 3, convert single-quoted spans to double-quoted:
`re.sub("'([^']*)'", ...)`. -/
def singleToDoubleQuotes (fuel : Nat) (s : List Char) : List Char :=
  match fuel, s with
  | 0, s => s
  | _, [] => []
  | fuel + 1, c :: rest =>
    if c = squote then
      let content := rest.takeWhile (fun x => x ≠ squote)
      match rest.drop content.length with
      | _ :: tail => dquote :: content ++ dquote :: singleToDoubleQuotes fuel tail
      | [] => c :: singleToDoubleQuotes fuel rest
    else c :: singleToDoubleQuotes fuel rest

/-- Repair pass 4, strip `//` line comments
(`re.sub("//.*?$", "", MULTILINE)`). -/
def stripLineComments (fuel : Nat) (s : List Char) : List Char :=
  match fuel, s with
  | 0, s => s
  | _, [] => []
  | fuel + 1, c :: rest =>
    match rest with
    | c2 :: _ =>
      if c = '/' ∧ c2 = '/' then
        stripLineComments fuel (rest.dropWhile (fun x => x ≠ '\n'))
      else c :: stripLineComments fuel rest
    | [] => [c]

/-- `\w` of Python `re` (ASCII range). -/
def isWordChar (c : Char) : Bool := isIdentChar c

/-- Repair pass 5, one keyword pass of
`re.sub(": \\s*Word\\b", ": word", ...)`: normalize a Python literal
after a colon to its JSON spelling (the replacement carries exactly one
space). -/
def normalizePyLiteral (word : List Char) (repl : List Char) :
    Nat → List Char → List Char
  | 0, s => s
  | _, [] => []
  | fuel + 1, c :: rest =>
    if c = ':' then
      let ws := rest.takeWhile reIsSpace
      let afterWs := rest.drop ws.length
      if word.isPrefixOf afterWs ∧
          ¬ isWordChar ((afterWs.drop word.length).headD ' ') then
        ':' :: ' ' :: repl ++
          normalizePyLiteral word repl fuel (afterWs.drop word.length)
      else c :: normalizePyLiteral word repl fuel rest
    else c :: normalizePyLiteral word repl fuel rest

/-- `_clean_json_aggressively`: the five repair passes in source order. -/
def clean_json_aggressively (s : List Char) : List Char :=
  let s1 := stripTrailingCommas (s.length + 1) s
  let s2 := quoteBareKeys (s1.length + 1) s1
  let s3 := singleToDoubleQuotes (s2.length + 1) s2
  let s4 := stripLineComments (s3.length + 1) s3
  let s5 := normalizePyLiteral ('T' :: 'r' :: 'u' :: 'e' :: [])
    ('t' :: 'r' :: 'u' :: 'e' :: []) (s4.length + 1) s4
  let s6 := normalizePyLiteral ('F' :: 'a' :: 'l' :: 's' :: 'e' :: [])
    ('f' :: 'a' :: 'l' :: 's' :: 'e' :: []) (s5.length + 1) s5
  normalizePyLiteral ('N' :: 'o' :: 'n' :: 'e' :: [])
    ('n' :: 'u' :: 'l' :: 'l' :: []) (s6.length + 1) s6

/-- Substring test (Python `needle in haystack`). -/
def containsSub : List Char → List Char → Bool
  | haystack, needle =>
    if needle.isPrefixOf haystack then true
    else
      match haystack with
      | [] => false
      | _ :: tail => containsSub tail needle

/-- Python `str.lower()` on ASCII text. -/
def lowerChars (s : List Char) : List Char := s.map Char.toLower

/-- `_get_fallback_structure`: context-keyed well-typed empty structures,
tagged with an error field. -/
def get_fallback_structure (context : List Char) : Json :=
  let errMsg : Json := .jstr (String.mk ("JSON parsing failed for ".data ++ context))
  if containsSub context "page_".data then
    .jobj [("page_number", .jnum 1),
           ("page_dimensions", .jobj [("width", .jnum 800), ("height", .jnum 600)]),
           ("extracted_values", .jarr []),
           ("error", errMsg)]
  else if containsSub context "excel_batch".data then
    .jobj [("batch_analysis", .jarr []), ("error", errMsg)]
  else if containsSub (lowerChars context) "mapping".data then
    .jobj [("suggested_mappings", .jarr []),
           ("mapping_quality_assessment", .jobj [("overall_coverage", .jnum 0)]),
           ("error", errMsg)]
  else if containsSub (lowerChars context) "audit".data then
    .jobj [("batch_results", .jarr []), ("error", errMsg)]
  else
    .jobj [("error", errMsg)]

/-- Try to match, at the head of `s`, the pattern
`"key"\s*:\s*[` of recovery strategy 1; on success return the suffix of
`s` beginning at the opening bracket. -/
def matchKeyArrayHere (s : List Char) (key : List Char) : Option (List Char) :=
  let pat := dquote :: key ++ [dquote]
  if pat.isPrefixOf s then
    let afterKey := (s.drop pat.length).dropWhile reIsSpace
    match afterKey with
    | c :: rest =>
      if c = ':' then
        match rest.dropWhile reIsSpace with
        | b :: rest2 => if b = '[' then some (b :: rest2) else none
        | [] => none
      else none
    | [] => none
  else none

/-- Leftmost occurrence of the `"key"\s*:\s*[` pattern (`re.search`). -/
def searchKeyArray : List Char → List Char → Option (List Char)
  | [], _ => none
  | c :: rest, key =>
    match matchKeyArrayHere (c :: rest) key with
    | some suffix => some suffix
    | none => searchKeyArray rest key

/-- The bracket-depth scan of recovery strategy 1: the inclusive slice of
`s` (which starts at `[`) up to the matching `]`, counting every bracket
character as the source does. -/
def bracketSlice (s : List Char) : Option (List Char) :=
  go s 0 []
where
  go : List Char → Int → List Char → Option (List Char)
    | [], _, _ => none
    | c :: rest, depth, acc =>
      if c = '[' then go rest (depth + 1) (c :: acc)
      else if c = ']' then
        if depth - 1 = 0 then some (c :: acc).reverse
        else go rest (depth - 1) (c :: acc)
      else go rest depth (c :: acc)

/-- One key of recovery strategy 1: locate the keyed array in the raw
response, bracket-slice it, parse it in isolation and wrap it back. -/
def tryRecoveryKey (responseText : List Char) (key : String) : Option Json :=
  match searchKeyArray responseText key.data with
  | none => none
  | some suffix =>
    match bracketSlice suffix with
    | none => none
    | some content =>
      match json_loads content with
      | some arr => some (.jobj [(key, arr)])
      | none => none

/-- `_json_recovery_strategies`: the three known array keys in source
order, then the fallback structure. -/
def json_recovery_strategies (responseText : List Char) (context : List Char) : Json :=
  match tryRecoveryKey responseText "extracted_values" with
  | some j => j
  | none =>
    match tryRecoveryKey responseText "potential_sources" with
    | some j => j
    | none =>
      match tryRecoveryKey responseText "batch_analysis" with
      | some j => j
      | none => get_fallback_structure context

/-- `_parse_gemini_json_response_robust`: strip, bound, repair, parse;
a missing brace span raises `ValueError` which the generic handler turns
directly into the fallback structure, while a parse failure goes through
the recovery strategies. Always returns a value — nothing escapes. -/
def parse_gemini_json_response_robust (responseText : List Char) (context : List Char) : Json :=
  let cleaned := stripMarkdownFences (pyStrip responseText)
  match find_json_object_span cleaned with
  | none => get_fallback_structure context
  | some span =>
    match json_loads (clean_json_aggressively span) with
    | some j => j
    | none => json_recovery_strategies responseText context

/-- Legacy `AIService._parse_json_response`: strip fences, then a single
strict `json.loads`; a parse failure re-raises as `ValueError` (the
error branch). -/
def parse_json_response (responseText : List Char) : Except String Json :=
  let cleaned := pyStrip responseText
  let cleaned := if fenceJsonTag.isPrefixOf cleaned then cleaned.drop 7 else cleaned
  let cleaned := if fenceBare.isSuffixOf cleaned then cleaned.take (cleaned.length - 3) else cleaned
  match json_loads (pyStrip cleaned) with
  | some j => .ok j
  | none => .error "Invalid JSON response from AI"

/-! ### Direct audit engine
(`EnhancedGeminiService.run_direct_comprehensive_audit` and
`_process_direct_audit_batch`)

The LLM boundary (`model.generate_content` followed by the robust parse)
is a parameter: for each batch it either raises (network/quota failure)
or responds with the parsed `Json` object.  A raised Python exception
anywhere else is the `Except.error` branch. -/

/-- Outcome of one batch's LLM call: the call raised, or it returned
text whose robust parse produced `result`. -/
inductive BatchOutcome where
  | raised (msg : String) : BatchOutcome
  | responded (result : Json) : BatchOutcome

/-- `datetime.utcnow().isoformat()`: the wall-clock reading, abstracted
to an opaque constant (no claim depends on it). -/
def utcTimestamp : Json := .jstr "utcnow"

/-- The synthesized `unverifiable` record built for a PDF value both by
the per-value fallback (missing entry) and the batch-level exception
handler of `_process_direct_audit_batch`; building it raises when
`business_context` is present but not a dict (`.get` on a non-dict). -/
def synth_unverifiable (pv : Dict) (i : Nat) (batchNum : Nat)
    (reasoning : String) (errField : Option String) : Except String Dict :=
  match dictGetD pv "business_context" (.jobj []) with
  | .jobj bc =>
    .ok ([("pdf_value_id", dictGetD pv "id" (.jstr ("pdf_value_" ++ toString i))),
          ("pdf_value", dictGetD pv "value" (.jstr "unknown")),
          ("pdf_context", dictGetD bc "semantic_meaning" (.jstr "unknown")),
          ("validation_status", .jstr "unverifiable"),
          ("excel_match", .jnull),
          ("confidence", .jnum 0),
          ("audit_reasoning", .jstr reasoning),
          ("original_pdf_data", .jobj pv),
          ("audit_timestamp", utcTimestamp),
          ("batch_number", .jnum batchNum)] ++
      (match errField with
       | some e => [("error", Json.jstr e)]
       | none => []))
  | _ => .error "AttributeError: business_context is not a dict"

/-- The batch-level exception handler: one synthesized fallback record
per PDF value of the batch, with the exception message as reasoning
(truncated to 100 characters) and an extra error field. -/
def direct_audit_fallback_results (pdfBatch : List Dict) (batchNum : Nat)
    (msg : String) : Except String (List Dict) :=
  go pdfBatch 0
where
  go : List Dict → Nat → Except String (List Dict)
    | [], _ => .ok []
    | pv :: rest, i => do
      let hd ← synth_unverifiable pv i batchNum
        ("Audit error: " ++ msg.take 100) (some msg)
      let tl ← go rest (i + 1)
      .ok (hd :: tl)

/-- `result.get('batch_results', [])` together with the `len()` call on
it: a list yields its entries; a string has a length and indexes to
one-character strings; a dict has a length but integer indexing raises
at first use, modelled by null stand-ins which likewise abort the update
loop; other values raise `TypeError` at `len()`. -/
def getBatchEntries (result : Json) : Except String (List Json) :=
  match result with
  | .jobj kvs =>
    match dictGetD kvs "batch_results" (.jarr []) with
    | .jarr entries => .ok entries
    | .jstr s => .ok (s.data.map (fun c => Json.jstr (String.mk [c])))
    | .jobj kvs2 => .ok (kvs2.map (fun _ => Json.jnull))
    | _ => .error "TypeError: object has no len"
  | _ => .error "AttributeError: result has no get"

/-- The reconciliation loop of `_process_direct_audit_batch`: position
`i` in the batch takes the model's `i`-th entry (augmented with the
original PDF data, a timestamp and the batch number) when one exists,
and a synthesized `unverifiable` record otherwise; a non-dict entry
raises at `.update`. -/
def direct_audit_combine (pdfBatch : List Dict) (entries : List Json)
    (batchNum : Nat) (i : Nat) : Except String (List Dict) :=
  match pdfBatch with
  | [] => .ok []
  | pv :: rest => do
    let hd ←
      if h : i < entries.length then
        match entries.get ⟨i, h⟩ with
        | .jobj kvs =>
          .ok (dictUpdate kvs
            [("original_pdf_data", .jobj pv),
             ("audit_timestamp", utcTimestamp),
             ("batch_number", .jnum batchNum)])
        | _ => (.error "AttributeError: entry has no update" : Except String Dict)
      else synth_unverifiable pv i batchNum "Batch processing incomplete" none
    let tl ← direct_audit_combine rest entries batchNum (i + 1)
    .ok (hd :: tl)

/-- `_process_direct_audit_batch`: combine the batch with the model's
entries; any exception inside the `try` block degrades the whole batch
to synthesized fallback records. -/
def process_direct_audit_batch (pdfBatch : List Dict) (batchNum : Nat)
    (outcome : BatchOutcome) : Except String (List Dict) :=
  match outcome with
  | .raised msg => direct_audit_fallback_results pdfBatch batchNum msg
  | .responded result =>
    match getBatchEntries result with
    | .error msg => direct_audit_fallback_results pdfBatch batchNum msg
    | .ok entries =>
      match direct_audit_combine pdfBatch entries batchNum 0 with
      | .ok rs => .ok rs
      | .error msg => direct_audit_fallback_results pdfBatch batchNum msg

/-- `pdf_values[i:i+5]` batching of the audit loop (fuel-structured;
the list length always suffices since every step consumes at least one
element). -/
def chunkListGo (fuel : Nat) (l : List Dict) : List (List Dict) :=
  match fuel, l with
  | 0, _ => []
  | _, [] => []
  | fuel + 1, x :: rest => (x :: rest).take 5 :: chunkListGo fuel ((x :: rest).drop 5)

/-- `pdf_values[i:i+5]` batching of the audit loop. -/
def chunkList (l : List Dict) : List (List Dict) := chunkListGo l.length l

/-- The audit loop over the batches, numbering them from 1. -/
def run_direct_audit_batches (llm : Nat → BatchOutcome) :
    List (List Dict) → Nat → Except String (List Dict)
  | [], _ => .ok []
  | b :: rest, k => do
    let rs ← process_direct_audit_batch b k (llm k)
    let more ← run_direct_audit_batches llm rest (k + 1)
    .ok (rs ++ more)

/-- `r.get("validation_status") == status` over a result list. -/
def countStatus (results : List Dict) (status : String) : Nat :=
  (results.filter (fun r =>
    match dictGet r "validation_status" with
    | some (.jstr s) => s = status
    | _ => false)).length

/-- Python number formatting of an accuracy percentage, abstracted by
the exact rational rendering (no claim depends on the digits). -/
def fmtAccuracy (q : ℚ) : String := toString q

/-- `_generate_direct_audit_recommendations`, reading the summary
counters (recommendation wording carried verbatim where it is pure
text). -/
def generate_direct_audit_recommendations (total matched fmtDiffs mismatched pdfOnly : Nat)
    (accuracy : ℚ) : List String :=
  if total = 0 then ["No values were audited. Check extraction process."]
  else
    (if 90 ≤ accuracy then
      ["Excellent data quality: " ++ fmtAccuracy accuracy ++ "% accuracy across all " ++
        toString total ++ " values."]
     else if 75 ≤ accuracy then
      ["Good data quality: " ++ fmtAccuracy accuracy ++ "% accuracy. Review flagged discrepancies."]
     else
      ["Data quality concerns: " ++ fmtAccuracy accuracy ++ "% accuracy. Comprehensive review needed."]) ++
    (if 0 < matched then
      [toString matched ++ " values perfectly matched between presentation and Excel."] else []) ++
    (if 0 < fmtDiffs then
      [toString fmtDiffs ++ " values have formatting differences but same underlying data."] else []) ++
    (if 0 < mismatched then
      [toString mismatched ++ " values show potential discrepancies requiring review."] else []) ++
    (if 0 < pdfOnly then
      (if 20 < ((pdfOnly : ℚ) / total) * 100 then
        [toString pdfOnly ++ " values appear only in presentation - verify if these should have Excel sources."]
       else
        [toString pdfOnly ++ " values are presentation-only (calculated metrics, external data, etc.)"])
     else []) ++
    ["Comprehensive coverage: All " ++ toString total ++ " extracted values were validated (100% coverage)."]

/-- The payload returned by `run_direct_comprehensive_audit` (the
summary as the dict the source builds; `coverage_analysis` is absent on
the degenerate early return). -/
structure AuditRun where
  summary : Dict
  detailed_results : List Dict
  recommendations : List String
  risk_assessment : String
  coverage_analysis : Option Dict

/-- The degenerate early-return payload produced when either input
collection is empty. -/
def emptyAuditRun : AuditRun :=
  { summary := [("total_values_checked", .jnum 0), ("overall_accuracy", .jnum 0)],
    detailed_results := [],
    recommendations := ["No values available for audit"],
    risk_assessment := "high",
    coverage_analysis := none }

/-- `run_direct_comprehensive_audit`: early return on an empty side,
otherwise batched processing, summary counters, accuracy, derived
recommendations and the accuracy-thresholded risk assessment. -/
def run_direct_comprehensive_audit (pdfValues excelValues : List Dict)
    (llm : Nat → BatchOutcome) : Except String AuditRun :=
  if pdfValues.isEmpty ∨ excelValues.isEmpty then
    .ok emptyAuditRun
  else do
    let allResults ← run_direct_audit_batches llm (chunkList pdfValues) 1
    let total := allResults.length
    let matched := countStatus allResults "matched"
    let mismatched := countStatus allResults "mismatched"
    let fmtDiffs := countStatus allResults "formatting_difference"
    let unver := countStatus allResults "unverifiable"
    let pdfOnly := countStatus allResults "pdf_only"
    let accuracy : ℚ := if 0 < total then (((matched : ℚ) + fmtDiffs) / total) * 100 else 0
    .ok { summary :=
            [("total_values_checked", .jnum total),
             ("matched", .jnum matched),
             ("mismatched", .jnum mismatched),
             ("formatting_differences", .jnum fmtDiffs),
             ("unverifiable", .jnum unver),
             ("pdf_only", .jnum pdfOnly),
             ("overall_accuracy", .jnum accuracy)],
          detailed_results := allResults,
          recommendations :=
            generate_direct_audit_recommendations total matched fmtDiffs mismatched pdfOnly accuracy,
          risk_assessment :=
            if 85 ≤ accuracy then "low" else if 70 ≤ accuracy then "medium" else "high",
          coverage_analysis := some
            [("pdf_values_analyzed", .jnum pdfValues.length),
             ("excel_values_searched", .jnum excelValues.length),
             ("coverage_percentage", .jnum 100),
             ("approach", .jstr "comprehensive_direct_validation")] }

/-! ### Legacy audit service (`audit_service.AuditService`) -/

/-- One element of the `asyncio.gather(..., return_exceptions=True)`
result list: a task that raised, or a validation-result dict. -/
inductive GatherOutcome where
  | gexc (msg : String) : GatherOutcome
  | gres (r : Dict) : GatherOutcome

/-- The mutable counters of `run_comprehensive_audit`. -/
structure AuditTally where
  detailed : List Dict := []
  total : Nat := 0
  matched : Nat := 0
  mismatched : Nat := 0
  formatting_errors : Nat := 0
  unverifiable : Nat := 0

/-- The result-processing loop of `run_comprehensive_audit`: exceptions
and falsy results are skipped, every other result is appended and
tallied by its `validation_status` (anything unrecognized counts as
unverifiable); a result without the key raises `KeyError`. -/
def audit_service_process_results : List GatherOutcome → AuditTally → Except String AuditTally
  | [], t => .ok t
  | .gexc _ :: rest, t => audit_service_process_results rest t
  | .gres r :: rest, t =>
    if r.isEmpty then audit_service_process_results rest t
    else
      match dictGet r "validation_status" with
      | none => .error "KeyError: validation_status"
      | some st =>
        let t1 := { t with detailed := t.detailed ++ [r], total := t.total + 1 }
        let t2 :=
          match st with
          | .jstr s =>
            if s = "matched" then { t1 with matched := t1.matched + 1 }
            else if s = "mismatched" then { t1 with mismatched := t1.mismatched + 1 }
            else if s = "formatting_error" then
              { t1 with formatting_errors := t1.formatting_errors + 1 }
            else { t1 with unverifiable := t1.unverifiable + 1 }
          | _ => { t1 with unverifiable := t1.unverifiable + 1 }
        audit_service_process_results rest t2

/-- `_assess_risk_level`: thresholds 95 and 85 on accuracy, combined
with conditions on the mismatched count. -/
def assess_risk_level (accuracy : ℚ) (mismatchedCount : Nat) : String :=
  if 95 ≤ accuracy ∧ mismatchedCount = 0 then "low"
  else if 85 ≤ accuracy ∧ mismatchedCount ≤ 2 then "medium"
  else "high"

/-- The summary portion of `run_comprehensive_audit`: tally the gathered
results, compute `overall_accuracy = matched / total * 100` (left at
its 0.0 initialization when nothing was checked), and assess risk. -/
def run_comprehensive_audit_summary (outcomes : List GatherOutcome) :
    Except String (AuditTally × ℚ × String) := do
  let t ← audit_service_process_results outcomes {}
  let accuracy : ℚ := if 0 < t.total then ((t.matched : ℚ) / t.total) * 100 else 0
  .ok (t, accuracy, assess_risk_level accuracy t.mismatched)

/-! ### Claim-side formulas (stated from the spec's words, for the
refinement comparisons) -/

/-- The accuracy formula exactly as the spec states it:
`(matched + formatting_difference) / total * 100`, 0 when the total is
0. -/
def claimAccuracyFormula (matched fmtDiffs total : Nat) : ℚ :=
  if 0 < total then (((matched : ℚ) + fmtDiffs) / total) * 100 else 0

/-- The risk tiering exactly as the spec states it. -/
def claimRiskTier (accuracy : ℚ) : String :=
  if 85 ≤ accuracy then "low" else if 70 ≤ accuracy then "medium" else "high"

/-- Order of the risk tiers, low to high. -/
def riskRank (tier : String) : Nat :=
  if tier = "low" then 0 else if tier = "medium" then 1 else 2

/-- Well-formedness of an extracted value handed to the audit engine:
its `business_context`, when present, is a dict (the schema the
extractor requests and every synthesized value satisfies). -/
def wfBusinessContext (pv : Dict) : Bool :=
  match dictGet pv "business_context" with
  | none => true
  | some (.jobj _) => true
  | some _ => false

/-! ### Coordinate post-processing
(`EnhancedGeminiService._validate_and_enhance_coordinates`) -/

/-- The coordinate sub-dict of one extracted value: its bounding box and
centre point when the keys are present (other coordinate fields are
untouched by the function and omitted). -/
structure CoordRec where
  bounding_box : Option (List ℚ)
  center_point : Option (List ℚ)

/-- One element of `result['extracted_values']`: the `coordinates` entry
when present, and the remaining fields as an untouched payload. -/
structure ExtractedValRec where
  coordinates : Option CoordRec
  payload : Dict

/-- The per-box body of `_validate_and_enhance_coordinates`: clamp each
coordinate into [0,1], reorder the pairs, expand to the minimum 0.01
footprint (capped at the far edge), and compute the centre point; a box
that is not four numbers gets the fixed default box. -/
def fix_bounding_box (bbox : List ℚ) : List ℚ × List ℚ :=
  match bbox with
  | [x1, y1, x2, y2] =>
    let cx1 := max 0 (min 1 x1)
    let cy1 := max 0 (min 1 y1)
    let cx2 := max 0 (min 1 x2)
    let cy2 := max 0 (min 1 y2)
    let sx1 := if cx2 < cx1 then cx2 else cx1
    let sx2 := if cx2 < cx1 then cx1 else cx2
    let sy1 := if cy2 < cy1 then cy2 else cy1
    let sy2 := if cy2 < cy1 then cy1 else cy2
    let ex2 := if sx2 - sx1 < 1 / 100 then min 1 (sx1 + 1 / 100) else sx2
    let ey2 := if sy2 - sy1 < 1 / 100 then min 1 (sy1 + 1 / 100) else sy2
    ([sx1, sy1, ex2, ey2], [(sx1 + ex2) / 2, (sy1 + ey2) / 2])
  | _ => ([1/10, 1/10, 2/10, 2/10], [3/20, 3/20])

/-- `_validate_and_enhance_coordinates` over the extracted values: a
value without a `coordinates`/`bounding_box` entry passes through
unchanged. -/
def validate_and_enhance_coordinates (values : List ExtractedValRec) :
    List ExtractedValRec :=
  values.map fun v =>
    match v.coordinates with
    | none => v
    | some coords =>
      match coords.bounding_box with
      | none => v
      | some bbox =>
        let (nb, nc) := fix_bounding_box bbox
        { v with coordinates := some { bounding_box := some nb, center_point := some nc } }

/-! ### Excel cell inventory
(`EnhancedGeminiService._extract_full_excel_sheet_structure`) -/

/-- A Python cell value: int, float, bool (a numeric subclass), string,
or any other object (dates etc.). -/
inductive PyVal where
  | pyInt (z : ℤ) : PyVal
  | pyFloat (q : ℚ) : PyVal
  | pyBool (b : Bool) : PyVal
  | pyStr (s : String) : PyVal
  | pyOther : PyVal
deriving Repr, DecidableEq

/-- `isinstance(v, (int, float))` together with the numeric value
(booleans are ints in Python). -/
def pyNumVal : PyVal → Option ℚ
  | .pyInt z => some (z : ℚ)
  | .pyFloat q => some q
  | .pyBool b => some (if b then 1 else 0)
  | _ => none

/-- `type(v).__name__` (non-modelled object types render as
`object`). -/
def pyTypeName : PyVal → String
  | .pyInt _ => "int"
  | .pyFloat _ => "float"
  | .pyBool _ => "bool"
  | .pyStr _ => "str"
  | .pyOther => "object"

/-- Accessing one worksheet cell: the access raises, the cell is empty
(`value is None`), or it yields a value with the formula-workbook text
and formatting attributes (a raising formula-cell access is the inner
`except: pass`, i.e. no formula text). -/
inductive CellAccess where
  | raises : CellAccess
  | blank : CellAccess
  | cellv (value : PyVal) (formulaText : Option String) (numberFormat : String)
      (fontBold : Bool) (fontSize : ℚ) : CellAccess
deriving DecidableEq

/-- A worksheet: what accessing cell (row, col) yields. -/
abbrev Sheet := Nat → Nat → CellAccess

/-- `openpyxl.utils.get_column_letter` (bijective base 26). -/
def columnLetterGo : Nat → Nat → List Char
  | 0, _ => []
  | _, 0 => []
  | fuel + 1, n => columnLetterGo fuel ((n - 1) / 26) ++ [Char.ofNat (65 + (n - 1) % 26)]

/-- Column number to letter, e.g. 1 to A, 27 to AA. -/
def get_column_letter (n : Nat) : String := String.mk (columnLetterGo n n)

/-- The per-cell record built in the extraction loop. -/
structure CellInfo where
  value : PyVal
  data_type : String
  row : Nat
  col : Nat
  number_format : String
  font_bold : Bool
  font_size : ℚ
  formula : Option String
deriving Repr, DecidableEq

/-- The dict `\x7b"cell_ref": ..., "value": ..., **cell_info\x7d`
appended to the numeric/text/formula category lists (the duplicated
value lives inside `info`). -/
structure CatCell where
  cell_ref : String
  info : CellInfo
deriving Repr, DecidableEq

/-- The row-major traversal order of the extraction loop over
`[1, maxRow] x [1, maxCol]`. -/
def rangePairs (maxRow maxCol : Nat) : List (Nat × Nat) :=
  (List.range' 1 maxRow).flatMap (fun r => (List.range' 1 maxCol).map (fun c => (r, c)))

/-- The body of the per-cell `try`: a raising access or an empty cell
contributes nothing, any other cell yields its `cells_data` entry. -/
def cellRecordOf (sheet : Sheet) (rc : Nat × Nat) : Option (String × CellInfo) :=
  match sheet rc.1 rc.2 with
  | .cellv v fText fmt bold size =>
    let formula : Option String :=
      match fText with
      | some t => if t ≠ "" ∧ t.data.headD ' ' = '=' then some t else none
      | none => none
    some (get_column_letter rc.2 ++ toString rc.1,
      { value := v, data_type := pyTypeName v, row := rc.1, col := rc.2,
        number_format := fmt, font_bold := bold, font_size := size,
        formula := formula })
  | _ => none

/-- Whether a number format string marks a currency
(`any(sym in number_format ...)`). -/
def fmtIsCurrency (fmt : String) : Bool :=
  containsSub fmt.data "$".data || containsSub fmt.data "€".data ||
  containsSub fmt.data "£".data || containsSub fmt.data "¥".data

/-- `v % 1000 == 0` on an exact numeric value: the value is an integer
divisible by 1000. -/
def isThousandMultiple (q : ℚ) : Bool := q.den = 1 && q.num % 1000 = 0

/-- The scoring body of the enhanced service's
`_identify_high_value_cells` (distinct from the excel-service scorer
below): magnitude tiers 3/2/1, round-thousand +1, formatted percentage
in (0, 100] +2, bold +2, font size over 12 +1, currency format +2,
formula +1. -/
def high_value_score (c : CatCell) : Nat :=
  let v := (pyNumVal c.info.value).getD 0
  (if 1000000 ≤ |v| then 3 else if 100000 ≤ |v| then 2
   else if 10000 ≤ |v| then 1 else 0)
  + (if 0 < |v| ∧ isThousandMultiple |v| then 1 else 0)
  + (if 0 < |v| ∧ |v| ≤ 100 ∧ containsSub c.info.number_format.data "%".data then 2 else 0)
  + (if c.info.font_bold then 2 else 0)
  + (if 12 < c.info.font_size then 1 else 0)
  + (if fmtIsCurrency c.info.number_format then 2 else 0)
  + (if c.info.formula.isSome then 1 else 0)

/-- Stable descending insertion by a rational key (the behaviour of
Python's stable `list.sort(key=..., reverse=True)`). -/
def insertDesc (key : α → ℚ) (x : α) : List α → List α
  | [] => [x]
  | y :: ys => if key y < key x then x :: y :: ys else y :: insertDesc key x ys

/-- Stable descending sort by a rational key. -/
def sortByDesc (key : α → ℚ) (l : List α) : List α :=
  l.foldr (insertDesc key) []

/-- `_identify_high_value_cells` (enhanced service): keep numeric cells
scoring at least 3, attach the importance score, sort descending, cap at
500 (the text cells argument is accepted and unused, as in the
source). -/
def identify_high_value_cells (numericCells _textCells : List CatCell) :
    List (CatCell × Nat) :=
  let scored := numericCells.filterMap (fun c =>
    let s := high_value_score c
    if 3 ≤ s then some (c, s) else none)
  (sortByDesc (fun cs => (cs.2 : ℚ)) scored).take 500

/-- The structure returned by `_extract_full_excel_sheet_structure`
(region detection and the dimensions block are not referenced by any
claim and are omitted). -/
structure SheetStructure where
  cells : List (String × CellInfo)
  numeric_cells : List CatCell
  text_cells : List CatCell
  formula_cells : List CatCell
  high_value_cells : List (CatCell × Nat)
  statistics : List (String × Nat)

/-- `_extract_full_excel_sheet_structure`: walk the capped range, skip
raising accesses (`except: continue`) and empty cells, build the
`cells_data` records, categorize numeric (non-zero `int`/`float`) and
non-blank text cells, collect formula cells, and expose the statistics
dict exactly as built in the source. -/
def extract_full_excel_sheet_structure (sheet : Sheet)
    (actualMaxRow actualMaxCol : Nat) : SheetStructure :=
  let maxRow := min actualMaxRow 1000
  let maxCol := min actualMaxCol 100
  let cells := (rangePairs maxRow maxCol).filterMap (cellRecordOf sheet)
  let numeric := cells.filterMap (fun rc =>
    match pyNumVal rc.2.value with
    | some q => if q ≠ 0 then some (⟨rc.1, rc.2⟩ : CatCell) else none
    | none => none)
  let texts := cells.filterMap (fun rc =>
    match rc.2.value with
    | .pyStr s => if pyStrip s.data ≠ [] then some (⟨rc.1, rc.2⟩ : CatCell) else none
    | _ => none)
  let formulas := cells.filterMap (fun rc =>
    if rc.2.formula.isSome then some (⟨rc.1, rc.2⟩ : CatCell) else none)
  { cells := cells,
    numeric_cells := numeric,
    text_cells := texts.take 100,
    formula_cells := formulas,
    high_value_cells := identify_high_value_cells numeric texts,
    statistics :=
      [("total_cells", cells.length),
       ("numeric_cells_count", numeric.length),
       ("text_cells_count", texts.length),
       ("formula_cells_count", formulas.length)] }

/-! ### Importance scorer
(`ComprehensiveExcelService._calculate_presentation_score`) -/

/-- `value != 0 and value % 1000 == 0`: the stored
`numeric_analysis.is_round_number` attribute computed by
`_extract_comprehensive_cell_info`. -/
def pyIsRoundThousand (v : ℚ) : Bool :=
  if v = 0 then false else isThousandMultiple v

/-- The attributes of a comprehensive cell record that
`_calculate_presentation_score` reads, plus the stored value-derived
analysis flags (`is_round_number` is recomputed from the value by the
scorer; `is_percentage_range` is read from the stored
`numeric_analysis`). -/
structure PresCell where
  value : PyVal
  is_round_number : Bool
  is_percentage_range : Bool
  font_bold : Bool
  font_size : ℚ
  is_currency : Bool
  is_percentage : Bool
  has_borders : Bool
  has_fill : Bool
  is_calculated : Bool
  fc_is_complex : Bool
  fc_has_sum : Bool
  fc_has_average : Bool
  is_corner_cell : Bool
deriving Repr, DecidableEq

/-- The magnitude-tier bonus of the scorer: tiers at 1e3/1e4/1e5/1e6
worth 1/2/3/4. -/
def magnitudeTierBonus (av : ℚ) : Nat :=
  if 1000000 ≤ av then 4
  else if 100000 ≤ av then 3
  else if 10000 ≤ av then 2
  else if 1000 ≤ av then 1
  else 0

/-- `_calculate_presentation_score`: 0 for a non-numeric value,
otherwise the sum of the magnitude tier, round-thousand bonus, stored
percentage-range bonus, formatting bonuses, border/fill bonuses, formula
bonuses and the corner-cell heuristic, exactly as in the source. -/
def calculate_presentation_score (cell : PresCell) : Nat :=
  match pyNumVal cell.value with
  | none => 0
  | some v =>
    magnitudeTierBonus |v|
    + (if 0 < |v| ∧ isThousandMultiple |v| then 2 else 0)
    + (if cell.is_percentage_range then 2 else 0)
    + (if cell.font_bold then 3 else 0)
    + (if 12 < cell.font_size then 1 else 0)
    + (if cell.is_currency then 2 else 0)
    + (if cell.is_percentage then 2 else 0)
    + (if cell.has_borders then 1 else 0)
    + (if cell.has_fill then 1 else 0)
    + (if cell.is_calculated then
        (if cell.fc_is_complex then 2 else 0)
        + (if cell.fc_has_sum ∨ cell.fc_has_average then 1 else 0)
       else 0)
    + (if cell.is_corner_cell then 1 else 0)

/-- A record whose stored `is_round_number` flag is consistent with its
value (as `_extract_comprehensive_cell_info` computes it). -/
def wfRoundFlag (cell : PresCell) : Bool :=
  match pyNumVal cell.value with
  | some v => cell.is_round_number == pyIsRoundThousand v
  | none => true

/-! ### Cell-batch analysis and workbook synthesis
(`EnhancedGeminiService._analyze_cell_batch_with_gemini` and
`_synthesize_comprehensive_excel_workbook`) -/

/-- Value embedding into the JSON/dict world for the fallback records
(non-modelled object values as null). -/
def pyValToJson : PyVal → Json
  | .pyInt z => .jnum (z : ℚ)
  | .pyFloat q => .jnum q
  | .pyBool b => .jbool b
  | .pyStr s => .jstr s
  | .pyOther => .jnull

/-- Outcome of one cell batch's LLM call plus robust parse. -/
inductive CellBatchOutcome where
  | raised (msg : String) : CellBatchOutcome
  | responded (result : Json) : CellBatchOutcome

/-- Python `x >= 0.3` on a likelihood value: numbers and booleans
compare, anything else raises `TypeError`. -/
def pyGeLikelihood (j : Json) (threshold : ℚ) : Except String Bool :=
  match j with
  | .jnum x => .ok (threshold ≤ x)
  | .jbool b => .ok (threshold ≤ (if b then (1 : ℚ) else 0))
  | _ => .error "TypeError: not comparable with float"

/-- The filtering comprehension over `batch_analysis`: keep the sources
whose `presentation_likelihood` (default 0) is at least 0.3; a non-dict
source or a non-comparable likelihood raises out of the comprehension. -/
def filter_batch_sources : List Json → Except String (List Dict)
  | [] => .ok []
  | .jobj kvs :: rest => do
    let keep ← pyGeLikelihood (dictGetD kvs "presentation_likelihood" (.jnum 0)) (mkRat 3 10)
    let tl ← filter_batch_sources rest
    .ok (if keep then kvs :: tl else tl)
  | _ :: _ => .error "AttributeError: source has no get"

/-- The per-batch exception handler of `_analyze_cell_batch_with_gemini`:
the first ten cells of the batch as basic records with likelihood
0.5. -/
def analyze_cell_batch_fallback (cellsBatch : List CatCell) (msg : String) : List Dict :=
  (cellsBatch.take 10).map fun c =>
    [("cell_reference", .jstr c.cell_ref),
     ("value", pyValToJson c.info.value),
     ("business_context", .jstr "Analysis failed - manual review needed"),
     ("presentation_likelihood", .jnum (mkRat 1 2)),
     ("data_type", .jstr "unknown"),
     ("error", .jstr msg)]

/-- `_analyze_cell_batch_with_gemini`: empty batches short-circuit;
otherwise take `batch_analysis` from the parsed response and filter it,
degrading to the fallback records when the call raised or anything in
the `try` block raises (a non-list `batch_analysis` makes the
comprehension raise at its first element: a dict iterates over string
keys and a string over characters, both of which fail `.get`; a number
is not iterable). -/
def analyze_cell_batch_with_gemini (cellsBatch : List CatCell)
    (outcome : CellBatchOutcome) : List Dict :=
  if cellsBatch.isEmpty then []
  else
    match outcome with
    | .raised msg => analyze_cell_batch_fallback cellsBatch msg
    | .responded result =>
      let itemsE : Except String (List Json) :=
        match result with
        | .jobj kvs =>
          match dictGetD kvs "batch_analysis" (.jarr []) with
          | .jarr items => .ok items
          | _ => .error "TypeError: batch_analysis is not a list of dicts"
        | _ => .error "AttributeError: result has no get"
      match itemsE with
      | .error msg => analyze_cell_batch_fallback cellsBatch msg
      | .ok items =>
        match filter_batch_sources items with
        | .ok kept => kept
        | .error msg => analyze_cell_batch_fallback cellsBatch msg

/-- The sort key `x.get("presentation_likelihood", 0)` (numeric in every
record the pipeline builds; a non-numeric value would raise in Python
and never occurs in the lists handed to the sort). -/
def likelihoodKeyQ (d : Dict) : ℚ :=
  match dictGet d "presentation_likelihood" with
  | some (.jnum q) => q
  | some (.jbool b) => if b then 1 else 0
  | _ => 0

/-- Structural equality of JSON values (Python `==` on parsed JSON). -/
def jsonEq : Json → Json → Bool
  | .jnull, .jnull => true
  | .jbool a, .jbool b => a = b
  | .jnum a, .jnum b => a = b
  | .jstr a, .jstr b => a = b
  | .jarr xs, .jarr ys => jsonListEq xs ys
  | .jobj xs, .jobj ys => jsonPairsEq xs ys
  | _, _ => false
where
  jsonListEq : List Json → List Json → Bool
    | [], [] => true
    | x :: xs, y :: ys => jsonEq x y && jsonListEq xs ys
    | _, _ => false
  jsonPairsEq : List (String × Json) → List (String × Json) → Bool
    | [], [] => true
    | (k1, v1) :: xs, (k2, v2) :: ys => k1 = k2 && jsonEq v1 v2 && jsonPairsEq xs ys
    | _, _ => false

/-- `category_breakdown[category] = category_breakdown.get(category, 0) + 1`
over a dict keyed by the (arbitrary) category value. -/
def bumpCategory (acc : List (Json × Nat)) (category : Json) : List (Json × Nat) :=
  if acc.any (fun kv => jsonEq kv.1 category) then
    acc.map (fun kv => if jsonEq kv.1 category then (kv.1, kv.2 + 1) else kv)
  else
    acc ++ [(category, 1)]

/-- The payload of `_synthesize_comprehensive_excel_workbook`
(timestamps and static marker strings omitted; on the internal
exception path the source returns the same — already sorted in place —
source list, so `potential_sources` is branch-independent). -/
structure WorkbookAnalysis where
  total_sheets_processed : Nat
  total_potential_sources : Nat
  high_likelihood_sources : Nat
  medium_likelihood_sources : Nat
  category_breakdown : List (Json × Nat)
  potential_sources : List Dict
  sheet_analyses : List Json

/-- `_synthesize_comprehensive_excel_workbook`: sort all sources by
descending likelihood, count the high/medium bands, group by category
and expose every source. -/
def synthesize_comprehensive_excel_workbook (sheetAnalyses : List Json)
    (allPotentialSources : List Dict) : WorkbookAnalysis :=
  let sorted := sortByDesc likelihoodKeyQ allPotentialSources
  { total_sheets_processed := sheetAnalyses.length,
    total_potential_sources := sorted.length,
    high_likelihood_sources :=
      (sorted.filter (fun s => mkRat 7 10 ≤ likelihoodKeyQ s)).length,
    medium_likelihood_sources :=
      (sorted.filter (fun s =>
        mkRat 4 10 ≤ likelihoodKeyQ s ∧ likelihoodKeyQ s < mkRat 7 10)).length,
    category_breakdown :=
      sorted.foldl (fun acc s => bumpCategory acc (dictGetD s "value_category" (.jstr "unknown"))) [],
    potential_sources := sorted,
    sheet_analyses := sheetAnalyses }

/-! ### Remaining claim-side definitions and concrete demonstration data -/

/-- The fallback key the spec expects for each known response schema,
mirroring the context classification of `_get_fallback_structure`. -/
def expectedFallbackKey (context : List Char) : Option String :=
  if containsSub context "page_".data then some "extracted_values"
  else if containsSub context "excel_batch".data then some "batch_analysis"
  else if containsSub (lowerChars context) "mapping".data then some "suggested_mappings"
  else if containsSub (lowerChars context) "audit".data then some "batch_results"
  else none

/-- An extracted value carrying no coordinate block at all. -/
def demoNoBoxVal : ExtractedValRec :=
  { coordinates := none, payload := [("id", .jstr "v9")] }

/-- Demonstration PDF value 1 (the spec's audit scenario). -/
def demoPdfV1 : Dict := [("id", .jstr "v1"), ("value", .jstr "$1,250,000")]

/-- Demonstration PDF value 2 (the spec's audit scenario). -/
def demoPdfV2 : Dict := [("id", .jstr "v2"), ("value", .jstr "23.5%")]

/-- A mocked parsed audit response carrying a single matched verdict for
v1 and no entry for v2. -/
def demoAuditResponse : Json :=
  .jobj [("batch_results", .jarr
    [.jobj [("pdf_value_id", .jstr "v1"), ("validation_status", .jstr "matched")]])]

/-- A 3x3 populated worksheet whose centre cell raises on access. -/
def demoSheet : Sheet := fun r c =>
  if r = 2 ∧ c = 2 then .raises
  else if r ≤ 3 ∧ c ≤ 3 ∧ 1 ≤ r ∧ 1 ≤ c then
    .cellv (.pyInt 5) none "General" false 11
  else .blank

/-- A demonstration cell record handed to the batch analyzer. -/
def demoCatCell : CatCell :=
  { cell_ref := "A1",
    info := { value := .pyInt 5000, data_type := "int", row := 1, col := 1,
              number_format := "General", font_bold := false, font_size := 11,
              formula := none } }

/-- A mocked parsed cell-batch response: one source above the 0.3
likelihood floor, one below it. -/
def demoBatchAnalysisResponse : Json :=
  .jobj [("batch_analysis", .jarr
    [.jobj [("cell_reference", .jstr "A1"), ("presentation_likelihood", .jnum (mkRat 9 10))],
     .jobj [("cell_reference", .jstr "B2"), ("presentation_likelihood", .jnum (mkRat 1 10))]])]

/-- The markdown-fenced, single-quoted, trailing-comma pseudo-JSON
response used to exercise the round-trip law: the fenced payload is
`\x7b'a': True, 'b': [1, 2,],\x7d`. -/
def demoFencedResponse : List Char :=
  "```json\n".data ++ [lcurl, squote] ++ "a".data ++ [squote] ++ ": True, ".data ++
  [squote] ++ "b".data ++ [squote] ++ ": [1, 2,],".data ++ [rcurl] ++ "\n```".data

/-- The bounded brace span of the demonstration response. -/
def demoFencedSpan : List Char :=
  [lcurl, squote] ++ "a".data ++ [squote] ++ ": True, ".data ++
  [squote] ++ "b".data ++ [squote] ++ ": [1, 2,],".data ++ [rcurl]

/-- The canonical-repair parse of the demonstration payload. -/
def demoFencedParsed : Json :=
  .jobj [("a", .jbool true), ("b", .jarr [.jnum 1, .jnum 2])]

/-- The concrete audit run of the demonstration scenario (two PDF
values, one Excel value, a mocked verdict for v1 only). -/
def demoAuditRun : AuditRun :=
  match run_direct_comprehensive_audit [demoPdfV1, demoPdfV2]
      [[("cell_reference", .jstr "B5")]] (fun _ => .responded demoAuditResponse) with
  | .ok r => r
  | .error _ => emptyAuditRun

/-- The legacy audit summary of a run whose single gathered result is a
formatting difference. -/
def demoLegacySummary : AuditTally × ℚ × String :=
  match run_comprehensive_audit_summary
      [.gres [("validation_status", .jstr "formatting_error")]] with
  | .ok x => x
  | .error _ => ({}, 37, "none")

/-- The concrete batch result of the demonstration scenario. -/
def demoProcessedBatch : List Dict :=
  match process_direct_audit_batch [demoPdfV1, demoPdfV2] 1 (.responded demoAuditResponse) with
  | .ok rs => rs
  | .error _ => []

/-- The numeric reading of a record's `presentation_likelihood` field
(booleans are numeric in Python). -/
def likelihoodNum (d : Dict) : Option ℚ :=
  match dictGet d "presentation_likelihood" with
  | some (.jnum q) => some q
  | some (.jbool b) => some (if b then 1 else 0)
  | _ => none

/-! ## Theorems -/

/-- Lookup in the summary dict built by the main audit path. -/
theorem dictGet_main_summary (total matched mismatched fmtDiffs unver pdfOnly : Nat)
    (accuracy : ℚ) :
    dictGet
      [("total_values_checked", .jnum total), ("matched", .jnum matched),
       ("mismatched", .jnum mismatched), ("formatting_differences", .jnum fmtDiffs),
       ("unverifiable", .jnum unver), ("pdf_only", .jnum pdfOnly),
       ("overall_accuracy", .jnum accuracy)] "overall_accuracy" =
      some (.jnum accuracy) := rfl

/-- C3 (corrected): the direct comprehensive audit reports
`overall_accuracy = (matched + formatting_differences) / total * 100`
(0 when the total is 0) over its detailed results, while the legacy
audit service computes `matched / total * 100`, excluding formatting
differences from the numerator. -/
theorem c3_overall_accuracy :
    (∀ (pdf excel : List Dict) (llm : Nat → BatchOutcome) (r : AuditRun),
      run_direct_comprehensive_audit pdf excel llm = .ok r →
      dictGet r.summary "total_values_checked" = some (.jnum r.detailed_results.length) ∧
      dictGet r.summary "overall_accuracy" = some (.jnum
        (claimAccuracyFormula (countStatus r.detailed_results "matched")
          (countStatus r.detailed_results "formatting_difference")
          r.detailed_results.length))) ∧
    (∀ (outcomes : List GatherOutcome) (t : AuditTally) (acc : ℚ) (risk : String),
      run_comprehensive_audit_summary outcomes = .ok (t, acc, risk) →
      acc = (if 0 < t.total then ((t.matched : ℚ) / t.total) * 100 else 0)) := by
  constructor
  · intro pdf excel llm r h
    unfold run_direct_comprehensive_audit at h
    by_cases hempty : pdf.isEmpty ∨ excel.isEmpty
    · simp only [hempty, if_true] at h
      cases h
      constructor
      · rfl
      · simp [emptyAuditRun, claimAccuracyFormula, countStatus, dictGet]
    · simp only [hempty, if_false] at h
      cases hb : run_direct_audit_batches llm (chunkList pdf) 1 with
      | error e => rw [hb] at h; exact absurd h (by simp [Bind.bind, Except.bind])
      | ok allResults =>
        rw [hb] at h
        simp only [Bind.bind, Except.bind, Except.ok.injEq] at h
        subst h
        refine ⟨rfl, ?_⟩
        simp only [claimAccuracyFormula]
        rfl
  · intro outcomes t acc risk h
    unfold run_comprehensive_audit_summary at h
    cases hp : audit_service_process_results outcomes {} with
    | error e => rw [hp] at h; exact absurd h (by simp [Bind.bind, Except.bind])
    | ok t0 =>
      rw [hp] at h
      simp only [Bind.bind, Except.bind, Except.ok.injEq, Prod.mk.injEq] at h
      obtain ⟨h1, h2, h3⟩ := h
      subst h1; subst h2
      rfl

/-- C3 witness: a run with one matched and one unverifiable result out
of two yields 50 percent. -/
theorem c3_overall_accuracy_witness :
    dictGet demoAuditRun.summary "overall_accuracy" = some (.jnum 50) := by
  have hrun : run_direct_comprehensive_audit [demoPdfV1, demoPdfV2]
      [[("cell_reference", .jstr "B5")]] (fun _ => .responded demoAuditResponse) =
      .ok demoAuditRun := by rfl
  have h := (c3_overall_accuracy.1 [demoPdfV1, demoPdfV2]
    [[("cell_reference", .jstr "B5")]] (fun _ => .responded demoAuditResponse)
    demoAuditRun hrun).2
  have h1 : countStatus demoAuditRun.detailed_results "matched" = 1 := by rfl
  have h2 : countStatus demoAuditRun.detailed_results "formatting_difference" = 0 := by rfl
  have h3 : demoAuditRun.detailed_results.length = 2 := by rfl
  rw [h, h1, h2, h3]
  have h4 : claimAccuracyFormula 1 0 2 = 50 := by norm_num [claimAccuracyFormula]
  rw [h4]

/-- C3 counterexample: a legacy audit run whose single result is a
formatting difference reports 0 percent accuracy where the claimed
formula demands 100. -/
theorem c3_counterexample :
    demoLegacySummary.1.total = 1 ∧ demoLegacySummary.1.matched = 0 ∧
    demoLegacySummary.1.formatting_errors = 1 ∧ demoLegacySummary.2.1 = 0 ∧
    claimAccuracyFormula demoLegacySummary.1.matched
      demoLegacySummary.1.formatting_errors demoLegacySummary.1.total = 100 ∧
    demoLegacySummary.2.1 ≠ claimAccuracyFormula demoLegacySummary.1.matched
      demoLegacySummary.1.formatting_errors demoLegacySummary.1.total := by
  have e : demoLegacySummary.2.1 = ((0 : ℕ) : ℚ) / ((1 : ℕ) : ℚ) * 100 := rfl
  have h1 : demoLegacySummary.1.total = 1 := rfl
  have h2 : demoLegacySummary.1.matched = 0 := rfl
  have h3 : demoLegacySummary.1.formatting_errors = 1 := rfl
  refine ⟨h1, h2, h3, by rw [e]; norm_num, ?_, ?_⟩
  · rw [h1, h2, h3]; norm_num [claimAccuracyFormula]
  · rw [e, h1, h2, h3]; norm_num [claimAccuracyFormula]

/-- C4 (corrected): the direct comprehensive audit's risk assessment is
exactly the spec's accuracy-thresholded tiering (85/70), and that
tiering is monotone: higher accuracy never yields a higher-risk tier.
(The legacy `_assess_risk_level` is refuted separately: it also depends
on the mismatched count, with thresholds 95/85.) -/
theorem c4_risk_tiering :
    (∀ (pdf excel : List Dict) (llm : Nat → BatchOutcome) (r : AuditRun) (acc : ℚ),
      run_direct_comprehensive_audit pdf excel llm = .ok r →
      dictGet r.summary "overall_accuracy" = some (.jnum acc) →
      r.risk_assessment = claimRiskTier acc) ∧
    (∀ a b : ℚ, a ≤ b → riskRank (claimRiskTier b) ≤ riskRank (claimRiskTier a)) := by
  constructor
  · intro pdf excel llm r acc h hacc
    unfold run_direct_comprehensive_audit at h
    by_cases hempty : pdf.isEmpty ∨ excel.isEmpty
    · simp only [hempty, if_true] at h
      cases h
      have : acc = 0 := by
        have := hacc.symm.trans (rfl : dictGet emptyAuditRun.summary "overall_accuracy" =
          some (.jnum 0)).symm
        exact (Json.jnum.injEq _ _).mp (Option.some.inj this.symm) |>.symm
      subst this
      show "high" = claimRiskTier 0
      norm_num [claimRiskTier]
    · simp only [hempty, if_false] at h
      cases hb : run_direct_audit_batches llm (chunkList pdf) 1 with
      | error e => rw [hb] at h; exact absurd h (by simp [Bind.bind, Except.bind])
      | ok allResults =>
        rw [hb] at h
        simp only [Bind.bind, Except.bind, Except.ok.injEq] at h
        subst h
        have : acc = (if 0 < allResults.length then
            (((countStatus allResults "matched" : ℚ) +
              (countStatus allResults "formatting_difference" : ℚ)) / (allResults.length : ℚ)) * 100
          else 0) := by
          have h0 := hacc
          rw [dictGet_main_summary] at h0
          exact ((Json.jnum.injEq _ _).mp (Option.some.inj h0)).symm
        subst this
        rfl
  · intro a b hab
    unfold claimRiskTier
    split_ifs <;> first | decide | (exfalso; linarith)

/-- C4 witness: the accuracy-0 degenerate run is tiered high, and
raising accuracy from 10 to 90 lowers the tier rank. -/
theorem c4_risk_tiering_witness :
    emptyAuditRun.risk_assessment = claimRiskTier 0 ∧
    riskRank (claimRiskTier 90) ≤ riskRank (claimRiskTier 10) := by
  constructor
  · exact c4_risk_tiering.1 [] [] (fun _ => .raised "") emptyAuditRun 0 (by rfl) (by rfl)
  · exact c4_risk_tiering.2 10 90 (by norm_num)

/-- C4 counterexample: the legacy `_assess_risk_level` returns `medium`
at accuracy 90 where the claimed tiering demands `low`, and is not a
function of accuracy alone (at accuracy 96 the tier depends on the
mismatched count). -/
theorem c4_counterexample :
    assess_risk_level 90 0 = "medium" ∧ claimRiskTier 90 = "low" ∧
    ("medium" : String) ≠ "low" ∧
    assess_risk_level 96 0 = "low" ∧ assess_risk_level 96 1 = "medium" := by
  refine ⟨by decide, by decide, by decide, by decide, by decide⟩

/-- The clamp `max(0, min(1, q))` lands in [0, 1]. -/
theorem clamp01_bounds (q : ℚ) : 0 ≤ max 0 (min 1 q) ∧ max 0 (min 1 q) ≤ 1 :=
  ⟨le_max_left _ _, max_le (by norm_num) (min_le_left _ _)⟩

/-- The conditional swap orders a clamped pair and keeps its bounds. -/
theorem orderedPair_facts (p q : ℚ) (hp0 : 0 ≤ p) (hp1 : p ≤ 1)
    (hq0 : 0 ≤ q) (hq1 : q ≤ 1) :
    0 ≤ (if q < p then q else p) ∧
    (if q < p then q else p) ≤ (if q < p then p else q) ∧
    (if q < p then p else q) ≤ 1 := by
  split_ifs with h
  · exact ⟨hq0, le_of_lt h, hp1⟩
  · exact ⟨hp0, not_lt.mp h, hq1⟩

/-- The minimum-footprint expansion keeps the order and the [0, 1]
bounds, and yields either the 0.01 footprint or a box capped at the far
edge. -/
theorem expandMin_facts (s1 s2 : ℚ) (_h0 : 0 ≤ s1) (h12 : s1 ≤ s2) (h21 : s2 ≤ 1) :
    s1 ≤ (if s2 - s1 < 1/100 then min 1 (s1 + 1/100) else s2) ∧
    (if s2 - s1 < 1/100 then min 1 (s1 + 1/100) else s2) ≤ 1 ∧
    (1/100 ≤ (if s2 - s1 < 1/100 then min 1 (s1 + 1/100) else s2) - s1 ∨
      (if s2 - s1 < 1/100 then min 1 (s1 + 1/100) else s2) = 1) := by
  split_ifs with h
  · refine ⟨le_min (by linarith) (by linarith), min_le_left _ _, ?_⟩
    by_cases h2 : s1 + 1/100 ≤ 1
    · left; rw [min_eq_right h2]; linarith
    · right; rw [min_eq_left (by linarith)]
  · exact ⟨h12, h21, Or.inl (by linarith)⟩

/-- C5 (corrected): for a four-number box the output is clamped into
[0, 1] and ordered, and each side either meets the 0.01 minimum or is
capped at the far edge (coordinate 1); a box of any other length is
replaced by the fixed default box; a value with no box entry passes
through unchanged; no value is ever dropped. -/
theorem c5_bounding_box :
    (∀ a b c d : ℚ,
      ∃ x1 y1 x2 y2,
        (fix_bounding_box [a, b, c, d]).1 = [x1, y1, x2, y2] ∧
        0 ≤ x1 ∧ x1 ≤ x2 ∧ x2 ≤ 1 ∧ 0 ≤ y1 ∧ y1 ≤ y2 ∧ y2 ≤ 1 ∧
        (1/100 ≤ x2 - x1 ∨ x2 = 1) ∧ (1/100 ≤ y2 - y1 ∨ y2 = 1)) ∧
    (∀ l : List ℚ, l.length ≠ 4 →
      fix_bounding_box l = ([1/10, 1/10, 2/10, 2/10], [3/20, 3/20])) ∧
    (∀ v : ExtractedValRec, v.coordinates = none →
      validate_and_enhance_coordinates [v] = [v]) ∧
    (∀ values : List ExtractedValRec,
      (validate_and_enhance_coordinates values).length = values.length) := by
  refine ⟨?_, ?_, ?_, ?_⟩
  · intro a b c d
    obtain ⟨ha0, ha1⟩ := clamp01_bounds a
    obtain ⟨hb0, hb1⟩ := clamp01_bounds b
    obtain ⟨hc0, hc1⟩ := clamp01_bounds c
    obtain ⟨hd0, hd1⟩ := clamp01_bounds d
    obtain ⟨hx0, hx12, hx21⟩ := orderedPair_facts _ _ ha0 ha1 hc0 hc1
    obtain ⟨hy0, hy12, hy21⟩ := orderedPair_facts _ _ hb0 hb1 hd0 hd1
    obtain ⟨hex1, hex2, hex3⟩ := expandMin_facts _ _ hx0 hx12 hx21
    obtain ⟨hey1, hey2, hey3⟩ := expandMin_facts _ _ hy0 hy12 hy21
    exact ⟨_, _, _, _, rfl, hx0, hex1, hex2, hy0, hey1, hey2, hex3, hey3⟩
  · intro l hl
    rcases l with _ | ⟨a, _ | ⟨b, _ | ⟨c, _ | ⟨d, _ | ⟨e, t⟩⟩⟩⟩⟩ <;>
      first
        | rfl
        | exact absurd rfl hl
  · intro v hv
    simp [validate_and_enhance_coordinates, hv]
  · intro values
    simp [validate_and_enhance_coordinates]

/-- C5 witness: a reversed, out-of-range box is repaired into an
ordered in-range box; a three-number box becomes the default; a value
without a box survives untouched. -/
theorem c5_bounding_box_witness :
    (∃ x1 y1 x2 y2,
      (fix_bounding_box [1/2, 9/10, 1/5, -(1/10)]).1 = [x1, y1, x2, y2] ∧
      0 ≤ x1 ∧ x1 ≤ x2 ∧ x2 ≤ 1 ∧ 0 ≤ y1 ∧ y1 ≤ y2 ∧ y2 ≤ 1 ∧
      (1/100 ≤ x2 - x1 ∨ x2 = 1) ∧ (1/100 ≤ y2 - y1 ∨ y2 = 1)) ∧
    fix_bounding_box [1, 2, 3] = ([1/10, 1/10, 2/10, 2/10], [3/20, 3/20]) ∧
    validate_and_enhance_coordinates [demoNoBoxVal] = [demoNoBoxVal] := by
  refine ⟨c5_bounding_box.1 (1/2) (9/10) (1/5) (-(1/10)),
    c5_bounding_box.2.1 [1, 2, 3] (by norm_num),
    c5_bounding_box.2.2.1 demoNoBoxVal rfl⟩

/-- C5 counterexample: the box [0.995, 0.5, 0.999, 0.6] is returned
with width 0.005, violating the claimed unconditional 0.01 minimum
footprint. -/
theorem c5_counterexample :
    (fix_bounding_box [199/200, 1/2, 999/1000, 3/5]).1 = [199/200, 1/2, 1, 3/5] ∧
    ¬ (1/100 ≤ (1 : ℚ) - 199/200) := by
  constructor
  · simp only [fix_bounding_box, min_def, max_def]
    norm_num
  · norm_num

/-- Building a synthesized record succeeds for any value whose
`business_context` is absent or a dict, and the record is marked
unverifiable. -/
theorem synth_unverifiable_ok (pv : Dict) (i bn : Nat) (reason : String)
    (errField : Option String) (h : wfBusinessContext pv = true) :
    ∃ d, synth_unverifiable pv i bn reason errField = .ok d ∧
      dictGet d "validation_status" = some (.jstr "unverifiable") := by
  unfold wfBusinessContext at h
  unfold synth_unverifiable dictGetD
  rcases hbc : dictGet pv "business_context" with _ | j
  · exact ⟨_, rfl, rfl⟩
  · rw [hbc] at h
    cases j <;> first
      | (exact ⟨_, rfl, rfl⟩)
      | simp at h

/-- The batch-level fallback yields one unverifiable record per value of
the batch. -/
theorem direct_audit_fallback_go_ok (l : List Dict) (i bn : Nat) (msg : String)
    (h : ∀ pv ∈ l, wfBusinessContext pv = true) :
    ∃ rs, direct_audit_fallback_results.go bn msg l i = .ok rs ∧
      rs.length = l.length ∧
      ∀ r ∈ rs, dictGet r "validation_status" = some (.jstr "unverifiable") := by
  induction l generalizing i with
  | nil => exact ⟨[], rfl, rfl, by simp⟩
  | cons pv rest ih =>
    obtain ⟨d, hd, hstat⟩ := synth_unverifiable_ok pv i bn
      ("Audit error: " ++ msg.take 100) (some msg) (h pv (by simp))
    obtain ⟨rs, hrs, hlen, hall⟩ := ih (i + 1) (fun x hx => h x (by simp [hx]))
    refine ⟨d :: rs, ?_, by simp [hlen], ?_⟩
    · unfold direct_audit_fallback_results.go
      rw [hd, hrs]
      rfl
    · intro r hr
      rcases List.mem_cons.mp hr with hr | hr
      · exact hr ▸ hstat
      · exact hall r hr

/-- The batch-level fallback, packaged. -/
theorem direct_audit_fallback_results_ok (l : List Dict) (bn : Nat) (msg : String)
    (h : ∀ pv ∈ l, wfBusinessContext pv = true) :
    ∃ rs, direct_audit_fallback_results l bn msg = .ok rs ∧
      rs.length = l.length ∧
      ∀ r ∈ rs, dictGet r "validation_status" = some (.jstr "unverifiable") :=
  direct_audit_fallback_go_ok l 0 bn msg h

/-- The reconciliation loop either raises (some used entry is not a
dict) or yields exactly one record per value, with every position
beyond the model's entries synthesized as unverifiable. -/
theorem direct_audit_combine_cases (l : List Dict) (entries : List Json)
    (bn : Nat) (i : Nat) (h : ∀ pv ∈ l, wfBusinessContext pv = true) :
    (∃ msg, direct_audit_combine l entries bn i = .error msg) ∨
    (∃ rs, direct_audit_combine l entries bn i = .ok rs ∧
      rs.length = l.length ∧
      ∀ j (hj : j < rs.length), entries.length ≤ i + j →
        dictGet (rs.get ⟨j, hj⟩) "validation_status" = some (.jstr "unverifiable")) := by
  induction l generalizing i with
  | nil => exact Or.inr ⟨[], rfl, rfl, by intro j hj; exact absurd hj (by simp)⟩
  | cons pv rest ih =>
    rcases ih (i + 1) (fun x hx => h x (by simp [hx])) with ⟨msg, hmsg⟩ | ⟨rs, hrs, hlen, hall⟩
    · by_cases hi : i < entries.length
      · cases hent : entries.get ⟨i, hi⟩ with
        | jobj kvs =>
          left
          refine ⟨msg, ?_⟩
          unfold direct_audit_combine
          simp only [hi, dif_pos, hent, hmsg]
          rfl
        | _ =>
          left
          refine ⟨"AttributeError: entry has no update", ?_⟩
          unfold direct_audit_combine
          simp only [hi, dif_pos, hent]
          rfl
      · obtain ⟨d, hd, _⟩ := synth_unverifiable_ok pv i bn "Batch processing incomplete" none
          (h pv (by simp))
        left
        refine ⟨msg, ?_⟩
        unfold direct_audit_combine
        simp only [hi, dif_neg, hd, hmsg]
        rfl
    · by_cases hi : i < entries.length
      · cases hent : entries.get ⟨i, hi⟩ with
        | jobj kvs =>
          right
          refine ⟨dictUpdate kvs
            [("original_pdf_data", .jobj pv), ("audit_timestamp", utcTimestamp),
             ("batch_number", .jnum bn)] :: rs, ?_, by simp [hlen], ?_⟩
          · unfold direct_audit_combine
            simp only [hi, dif_pos, hent, hrs]
            rfl
          · intro j hj hej
            cases j with
            | zero => omega
            | succ j0 =>
              have := hall j0 (by simpa using hj) (by omega)
              simpa using this
        | _ =>
          left
          refine ⟨"AttributeError: entry has no update", ?_⟩
          unfold direct_audit_combine
          simp only [hi, dif_pos, hent]
          rfl
      · obtain ⟨d, hd, hstat⟩ := synth_unverifiable_ok pv i bn "Batch processing incomplete" none
          (h pv (by simp))
        right
        refine ⟨d :: rs, ?_, by simp [hlen], ?_⟩
        · unfold direct_audit_combine
          simp only [hi, dif_neg, hd, hrs]
          rfl
        · intro j hj hej
          cases j with
          | zero => exact hstat
          | succ j0 =>
            have := hall j0 (by simpa using hj) (by omega)
            simpa using this

/-- `_process_direct_audit_batch` always yields exactly one record per
input value; missing positions — and every position when the call
raised, the entry container was unusable, or the update loop raised —
are unverifiable. -/
theorem process_direct_audit_batch_ok (batch : List Dict) (bn : Nat)
    (outcome : BatchOutcome) (h : ∀ pv ∈ batch, wfBusinessContext pv = true) :
    ∃ rs, process_direct_audit_batch batch bn outcome = .ok rs ∧
      rs.length = batch.length ∧
      (∀ msg, outcome = .raised msg →
        ∀ r ∈ rs, dictGet r "validation_status" = some (.jstr "unverifiable")) ∧
      (∀ result entries, outcome = .responded result →
        getBatchEntries result = .ok entries →
        ∀ j (hj : j < rs.length), entries.length ≤ j →
          dictGet (rs.get ⟨j, hj⟩) "validation_status" = some (.jstr "unverifiable")) := by
  cases outcome with
  | raised msg =>
    obtain ⟨rs, hrs, hlen, hall⟩ := direct_audit_fallback_results_ok batch bn msg h
    exact ⟨rs, hrs, hlen, fun _ _ => hall, by intro result entries he; cases he⟩
  | responded result =>
    cases he : getBatchEntries result with
    | error msg =>
      obtain ⟨rs, hrs, hlen, hall⟩ := direct_audit_fallback_results_ok batch bn msg h
      refine ⟨rs, ?_, hlen, ?_, ?_⟩
      · simp only [process_direct_audit_batch]
        rw [he]
        exact hrs
      · intro m hm; cases hm
      · intro result2 entries2 hr2 he2
        cases hr2
        rw [he] at he2
        cases he2
    | ok entries =>
      rcases direct_audit_combine_cases batch entries bn 0 h with ⟨msg, hmsg⟩ | ⟨rs, hrs, hlen, hall⟩
      · obtain ⟨rs, hrs, hlen, hall⟩ := direct_audit_fallback_results_ok batch bn msg h
        refine ⟨rs, ?_, hlen, ?_, ?_⟩
        · simp only [process_direct_audit_batch]
          rw [he]
          show (match direct_audit_combine batch entries bn 0 with
                | Except.ok rs => Except.ok rs
                | Except.error msg => direct_audit_fallback_results batch bn msg) = Except.ok rs
          rw [hmsg]
          exact hrs
        · intro m hm; cases hm
        · intro result2 entries2 hr2 he2
          intro j hj hej
          exact hall _ (List.get_mem _ _ _)
      · refine ⟨rs, ?_, hlen, ?_, ?_⟩
        · simp only [process_direct_audit_batch]
          rw [he]
          show (match direct_audit_combine batch entries bn 0 with
                | Except.ok rs => Except.ok rs
                | Except.error msg => direct_audit_fallback_results batch bn msg) = Except.ok rs
          rw [hrs]
        · intro m hm; cases hm
        · intro result2 entries2 hr2 he2
          cases hr2
          rw [he] at he2
          cases he2
          intro j hj hej
          exact hall j hj (by omega)

/-- The audit batching partitions the input: concatenating the chunks
restores the value list. -/
theorem chunkListGo_join (fuel : Nat) :
    ∀ l : List Dict, l.length ≤ fuel → (chunkListGo fuel l).flatten = l := by
  induction fuel with
  | zero =>
    intro l hl
    have : l = [] := List.length_eq_zero.mp (Nat.le_zero.mp hl)
    subst this
    rfl
  | succ fuel ih =>
    intro l hl
    cases l with
    | nil => rfl
    | cons x rest =>
      show ((x :: rest).take 5 ++ (chunkListGo fuel ((x :: rest).drop 5)).flatten) = x :: rest
      rw [ih ((x :: rest).drop 5) (by simp at hl ⊢; omega)]
      exact List.take_append_drop 5 (x :: rest)

/-- Concatenating the chunks of the audit loop restores the input. -/
theorem chunkList_join (l : List Dict) : (chunkList l).flatten = l :=
  chunkListGo_join l.length l (le_refl _)

/-- The audit loop over well-formed chunks succeeds and yields one
record per chunked value. -/
theorem run_direct_audit_batches_ok (llm : Nat → BatchOutcome) :
    ∀ (chunks : List (List Dict)) (k : Nat),
    (∀ b ∈ chunks, ∀ pv ∈ b, wfBusinessContext pv = true) →
    ∃ rs, run_direct_audit_batches llm chunks k = .ok rs ∧
      rs.length = chunks.flatten.length := by
  intro chunks
  induction chunks with
  | nil => exact fun k _ => ⟨[], rfl, rfl⟩
  | cons b rest ih =>
    intro k h
    obtain ⟨rsb, hrsb, hlenb, _, _⟩ :=
      process_direct_audit_batch_ok b k (llm k) (h b (by simp))
    obtain ⟨rsr, hrsr, hlenr⟩ := ih (k + 1) (fun b2 hb2 => h b2 (by simp [hb2]))
    refine ⟨rsb ++ rsr, ?_, by simp [hlenb, hlenr]⟩
    show (do
      let rs ← process_direct_audit_batch b k (llm k)
      let more ← run_direct_audit_batches llm rest (k + 1)
      (.ok (rs ++ more) : Except String (List Dict))) = .ok (rsb ++ rsr)
    rw [hrsb, hrsr]
    rfl

/-- C1 (confirmed): for any batch of extracted values (with dict-shaped
business context) and any LLM behaviour — a raised call, an empty,
short, long, or malformed `batch_results` — `_process_direct_audit_batch`
returns exactly one audit result per input value, and every position not
covered by a well-formed model entry carries a synthesized
`unverifiable` verdict; no input value is dropped. -/
theorem c1_one_result_per_value (batch : List Dict) (bn : Nat)
    (outcome : BatchOutcome) (h : ∀ pv ∈ batch, wfBusinessContext pv = true) :
    ∃ rs, process_direct_audit_batch batch bn outcome = .ok rs ∧
      rs.length = batch.length ∧
      (∀ msg, outcome = .raised msg →
        ∀ r ∈ rs, dictGet r "validation_status" = some (.jstr "unverifiable")) ∧
      (∀ result entries, outcome = .responded result →
        getBatchEntries result = .ok entries →
        ∀ j (hj : j < rs.length), entries.length ≤ j →
          dictGet (rs.get ⟨j, hj⟩) "validation_status" = some (.jstr "unverifiable")) :=
  process_direct_audit_batch_ok batch bn outcome h

/-- C1 witness: two values against a response carrying a single matched
entry yield exactly two results, the second synthesized unverifiable. -/
theorem c1_one_result_per_value_witness :
    ((∀ pv ∈ [demoPdfV1, demoPdfV2], wfBusinessContext pv = true) ∧
      ∃ rs, process_direct_audit_batch [demoPdfV1, demoPdfV2] 1
          (.responded demoAuditResponse) = .ok rs ∧
        rs.length = 2 ∧
        (∀ result entries,
          (BatchOutcome.responded demoAuditResponse : BatchOutcome) = .responded result →
          getBatchEntries result = .ok entries →
          ∀ j (hj : j < rs.length), entries.length ≤ j →
            dictGet (rs.get ⟨j, hj⟩) "validation_status" = some (.jstr "unverifiable"))) ∧
    dictGet (demoProcessedBatch.getD 1 []) "validation_status" =
      some (.jstr "unverifiable") := by
  have hwf : ∀ pv ∈ [demoPdfV1, demoPdfV2], wfBusinessContext pv = true := by decide
  obtain ⟨rs, hrs, hlen, _, hmiss⟩ :=
    c1_one_result_per_value [demoPdfV1, demoPdfV2] 1 (.responded demoAuditResponse) hwf
  exact ⟨⟨hwf, rs, hrs, hlen, fun result entries hr he => by
    cases hr; rw [(rfl : getBatchEntries demoAuditResponse = .ok _)] at he;
      cases he; exact hmiss demoAuditResponse _ rfl rfl⟩, by rfl⟩

/-- C8 (corrected): the degenerate blocking result is returned exactly
when either input side is empty (not only when both are); in every
other case the audit completes with one result per extracted value, so
partial failures surface only inside the per-value results and
counters. -/
theorem c8_blocking_condition :
    (∀ (pdf excel : List Dict) (llm : Nat → BatchOutcome),
      pdf.isEmpty ∨ excel.isEmpty →
      run_direct_comprehensive_audit pdf excel llm = .ok emptyAuditRun) ∧
    (∀ (pdf excel : List Dict) (llm : Nat → BatchOutcome),
      pdf.isEmpty = false → excel.isEmpty = false →
      (∀ pv ∈ pdf, wfBusinessContext pv = true) →
      ∃ r, run_direct_comprehensive_audit pdf excel llm = .ok r ∧
        r.detailed_results.length = pdf.length) := by
  constructor
  · intro pdf excel llm hempty
    unfold run_direct_comprehensive_audit
    simp only [hempty, if_true]
  · intro pdf excel llm hp he hwf
    have hchunks : ∀ b ∈ chunkList pdf, ∀ pv ∈ b, wfBusinessContext pv = true := by
      intro b hb pv hpv
      exact hwf pv (by
        have := chunkList_join pdf
        rw [← this]
        exact List.mem_flatten.mpr ⟨b, hb, hpv⟩)
    obtain ⟨rs, hrs, hlen⟩ := run_direct_audit_batches_ok llm (chunkList pdf) 1 hchunks
    unfold run_direct_comprehensive_audit
    simp only [hp, he, Bool.false_eq_true, or_self, if_false]
    rw [hrs]
    refine ⟨_, rfl, ?_⟩
    show rs.length = pdf.length
    rw [hlen, chunkList_join]

/-- C8 witness: a two-value audit against a nonempty Excel side
completes with two detailed results; an empty Excel side blocks. -/
theorem c8_blocking_condition_witness :
    run_direct_comprehensive_audit [demoPdfV1] [] (fun _ => .raised "") = .ok emptyAuditRun ∧
    ∃ r, run_direct_comprehensive_audit [demoPdfV1, demoPdfV2]
        [[("cell_reference", .jstr "B5")]] (fun _ => .responded demoAuditResponse) = .ok r ∧
      r.detailed_results.length = 2 := by
  constructor
  · exact c8_blocking_condition.1 [demoPdfV1] [] (fun _ => .raised "") (by decide)
  · exact c8_blocking_condition.2 [demoPdfV1, demoPdfV2]
      [[("cell_reference", .jstr "B5")]] (fun _ => .responded demoAuditResponse)
      (by decide) (by decide) (by decide)

/-- C8 counterexample: with one PDF value present and no Excel values,
usable input exists on one side yet the audit is blocked with the
degenerate no-values result — the blocking condition is a disjunction,
not the claimed conjunction. -/
theorem c8_counterexample :
    run_direct_comprehensive_audit [demoPdfV1] [] (fun _ => .raised "") = .ok emptyAuditRun ∧
    ([demoPdfV1] : List Dict) ≠ [] ∧
    emptyAuditRun.detailed_results = [] ∧
    emptyAuditRun.recommendations = ["No values available for audit"] := by
  refine ⟨rfl, by simp, rfl, rfl⟩

/-- Keeping the successful projections of a list has the same length as
filtering for success. -/
theorem length_filterMap_eq_length_filter (l : List β) (f : β → Option α) :
    (l.filterMap f).length = (l.filter (fun b => (f b).isSome)).length := by
  induction l with
  | nil => rfl
  | cons b rest ih =>
    cases hfb : f b <;>
      simp [List.filterMap_cons, List.filter_cons, hfb, ih]

/-- Complementary filters split a list's length. -/
theorem filter_length_compl (l : List β) (p q : β → Bool)
    (h : ∀ b ∈ l, p b = ! q b) :
    (l.filter p).length + (l.filter q).length = l.length := by
  induction l with
  | nil => rfl
  | cons b rest ih =>
    have hb := h b (by simp)
    have hrest := ih (fun x hx => h x (by simp [hx]))
    cases hq : q b <;> rw [hq] at hb <;>
      simp [List.filter_cons, hb, hq] <;> omega

/-- C7 (corrected): the cell inventory walk never raises — a raising
cell access simply contributes nothing — and its statistics carry
exactly the four total/numeric/text/formula counters, with no error
tally of any kind; in particular a 3x3 populated region with one
raising cell yields exactly 8 cell records. -/
theorem c7_cell_inventory :
    (∀ (sheet : Sheet) (actR actC : Nat),
      (extract_full_excel_sheet_structure sheet actR actC).statistics.map Prod.fst =
        ["total_cells", "numeric_cells_count", "text_cells_count", "formula_cells_count"] ∧
      (extract_full_excel_sheet_structure sheet actR actC).cells.length =
        ((rangePairs (min actR 1000) (min actC 100)).filter
          (fun rc => (cellRecordOf sheet rc).isSome)).length) ∧
    (∀ sheet : Sheet,
      (∀ rc ∈ rangePairs 3 3,
        (cellRecordOf sheet rc).isSome = true ∨ sheet rc.1 rc.2 = .raises) →
      ((rangePairs 3 3).filter (fun rc => sheet rc.1 rc.2 = .raises)).length = 1 →
      (extract_full_excel_sheet_structure sheet 3 3).cells.length = 8) := by
  have hgen : ∀ (sheet : Sheet) (actR actC : Nat),
      (extract_full_excel_sheet_structure sheet actR actC).cells.length =
        ((rangePairs (min actR 1000) (min actC 100)).filter
          (fun rc => (cellRecordOf sheet rc).isSome)).length :=
    fun sheet actR actC => length_filterMap_eq_length_filter _ _
  refine ⟨fun sheet actR actC => ⟨rfl, hgen sheet actR actC⟩, ?_⟩
  intro sheet hdi hone
  have h3 : (min 3 1000) = 3 := by decide
  have h3' : (min 3 100) = 3 := by decide
  have h1 := hgen sheet 3 3
  rw [h3, h3'] at h1
  rw [h1]
  have hcompl : ∀ rc ∈ rangePairs 3 3,
      ((cellRecordOf sheet rc).isSome : Bool) =
        ! (decide (sheet rc.1 rc.2 = CellAccess.raises)) := by
    intro rc hrc
    rcases hdi rc hrc with hs | hr
    · rw [hs]
      cases haccess : sheet rc.1 rc.2 with
      | raises =>
        exfalso
        rw [show cellRecordOf sheet rc = none by unfold cellRecordOf; rw [haccess]] at hs
        cases hs
      | blank =>
        simp [haccess]
      | cellv v f fmt bold size =>
        simp [haccess]
    · rw [hr]
      rw [show cellRecordOf sheet rc = none by unfold cellRecordOf; rw [hr]]
      simp
  have hsplit := filter_length_compl (rangePairs 3 3)
    (fun rc => (cellRecordOf sheet rc).isSome)
    (fun rc => decide (sheet rc.1 rc.2 = CellAccess.raises)) hcompl
  have hlen9 : (rangePairs 3 3).length = 9 := by decide
  have hone2 : ((rangePairs 3 3).filter
      (fun rc => decide (sheet rc.1 rc.2 = CellAccess.raises))).length = 1 := hone
  omega

/-- C7 witness: the concrete 3x3 sheet whose centre cell raises yields
8 records, and its statistics are exactly the four counters. -/
theorem c7_cell_inventory_witness :
    (extract_full_excel_sheet_structure demoSheet 3 3).cells.length = 8 ∧
    (extract_full_excel_sheet_structure demoSheet 3 3).statistics.map Prod.fst =
      ["total_cells", "numeric_cells_count", "text_cells_count", "formula_cells_count"] := by
  constructor
  · exact c7_cell_inventory.2 demoSheet (by decide) (by decide)
  · exact (c7_cell_inventory.1 demoSheet 3 3).1

/-- C7 counterexample: in the 3x3 one-raising-cell scenario the
statistics dict is exactly the four counters — no key mentions an
error, so no error tally of 1 (or of any value) is reported. -/
theorem c7_counterexample :
    (extract_full_excel_sheet_structure demoSheet 3 3).statistics =
      [("total_cells", 8), ("numeric_cells_count", 8),
       ("text_cells_count", 0), ("formula_cells_count", 0)] ∧
    (∀ kv ∈ (extract_full_excel_sheet_structure demoSheet 3 3).statistics,
      containsSub kv.1.data "error".data = false) ∧
    (extract_full_excel_sheet_structure demoSheet 3 3).cells.length = 8 := by
  refine ⟨by decide, by decide, by decide⟩

/-- The round-thousand bonus condition the scorer computes from the
absolute value coincides with the stored `is_round_number`
computation on the signed value. -/
theorem roundBonus_cond_eq_pyIsRound (v : ℚ) :
    (0 < |v| ∧ isThousandMultiple |v| = true) ↔ pyIsRoundThousand v = true := by
  unfold pyIsRoundThousand
  rcases lt_trichotomy v 0 with hneg | h0 | hpos
  · rw [abs_of_neg hneg]
    rw [if_neg (ne_of_lt hneg)]
    unfold isThousandMultiple
    rw [Rat.neg_den, Rat.neg_num]
    constructor
    · intro ⟨_, hm⟩
      simp only [Bool.and_eq_true, decide_eq_true_eq] at hm ⊢
      obtain ⟨hd, hn⟩ := hm
      exact ⟨hd, by omega⟩
    · intro hm
      simp only [Bool.and_eq_true, decide_eq_true_eq] at hm ⊢
      obtain ⟨hd, hn⟩ := hm
      exact ⟨by linarith, hd, by omega⟩
  · subst h0
    simp
  · rw [abs_of_pos hpos, if_neg (ne_of_gt hpos)]
    exact ⟨fun h => h.2, fun h => ⟨hpos, h⟩⟩

/-- C9 (confirmed): the importance score is a pure function of the cell
record, monotonically non-decreasing in the magnitude tier of the value
when every other attribute of the record — including the stored
value-derived `is_round_number` flag, which the scorer recomputes — is
held fixed on a well-formed record. -/
theorem c9_importance_monotone (r1 : PresCell) (w2 : PyVal) (v1 v2 : ℚ)
    (hv1 : pyNumVal r1.value = some v1) (hv2 : pyNumVal w2 = some v2)
    (hwf1 : wfRoundFlag r1 = true)
    (hwf2 : wfRoundFlag { r1 with value := w2 } = true)
    (hmag : magnitudeTierBonus |v1| ≤ magnitudeTierBonus |v2|) :
    calculate_presentation_score r1 ≤
      calculate_presentation_score { r1 with value := w2 } := by
  obtain ⟨w1, rn, pr, fb, fs, cur, pct, hb, hf, calc0, cplx, fsum, favg, corner⟩ := r1
  simp only [wfRoundFlag, hv1, hv2, beq_iff_eq] at hwf1 hwf2
  have hround : pyIsRoundThousand v1 = pyIsRoundThousand v2 := by
    rw [← hwf1, ← hwf2]
  simp only [calculate_presentation_score, hv1, hv2]
  have hrb : (if 0 < |v1| ∧ isThousandMultiple |v1| = true then 2 else 0) =
      (if 0 < |v2| ∧ isThousandMultiple |v2| = true then 2 else 0) := by
    by_cases h1 : 0 < |v1| ∧ isThousandMultiple |v1| = true
    · rw [if_pos h1, if_pos]
      exact (roundBonus_cond_eq_pyIsRound v2).mpr
        (hround ▸ (roundBonus_cond_eq_pyIsRound v1).mp h1)
    · rw [if_neg h1, if_neg]
      intro h2
      exact h1 ((roundBonus_cond_eq_pyIsRound v1).mpr
        (hround ▸ (roundBonus_cond_eq_pyIsRound v2).mp h2))
  rw [hrb]
  omega

/-- C9 witness: raising a bold round-thousand cell's value from 2,000
(tier 1) to 3,000,000 (tier 4) does not decrease the score. -/
theorem c9_importance_monotone_witness :
    calculate_presentation_score
      { value := .pyInt 2000, is_round_number := true, is_percentage_range := false,
        font_bold := true, font_size := 11, is_currency := false, is_percentage := false,
        has_borders := false, has_fill := false, is_calculated := false,
        fc_is_complex := false, fc_has_sum := false, fc_has_average := false,
        is_corner_cell := false } ≤
    calculate_presentation_score
      { value := .pyInt 3000000, is_round_number := true, is_percentage_range := false,
        font_bold := true, font_size := 11, is_currency := false, is_percentage := false,
        has_borders := false, has_fill := false, is_calculated := false,
        fc_is_complex := false, fc_has_sum := false, fc_has_average := false,
        is_corner_cell := false } :=
  c9_importance_monotone
    { value := .pyInt 2000, is_round_number := true, is_percentage_range := false,
      font_bold := true, font_size := 11, is_currency := false, is_percentage := false,
      has_borders := false, has_fill := false, is_calculated := false,
      fc_is_complex := false, fc_has_sum := false, fc_has_average := false,
      is_corner_cell := false }
    (.pyInt 3000000) 2000 3000000 (by decide) (by decide) (by decide) (by decide)
    (by decide)

/-- Membership is invariant under descending insertion. -/
theorem mem_insertDesc (key : α → ℚ) (y x : α) :
    ∀ l : List α, x ∈ insertDesc key y l ↔ x = y ∨ x ∈ l := by
  intro l
  induction l with
  | nil => simp [insertDesc]
  | cons z zs ih =>
    unfold insertDesc
    split_ifs with h
    · simp
    · simp only [List.mem_cons, ih]
      tauto

/-- Membership is invariant under the descending sort. -/
theorem mem_sortByDesc (key : α → ℚ) (l : List α) (x : α) :
    x ∈ sortByDesc key l ↔ x ∈ l := by
  induction l with
  | nil => simp [sortByDesc]
  | cons z zs ih =>
    show x ∈ insertDesc key z (sortByDesc key zs) ↔ _
    rw [mem_insertDesc, ih]
    simp [eq_comm]

/-- Every source kept by the filtering comprehension carries a numeric
(or boolean) likelihood of at least 0.3. -/
theorem filter_batch_sources_floor :
    ∀ (items : List Json) (kept : List Dict),
    filter_batch_sources items = .ok kept →
    ∀ s ∈ kept, ∃ q, likelihoodNum s = some q ∧ mkRat 3 10 ≤ q := by
  intro items
  induction items with
  | nil =>
    intro kept hk
    cases hk
    simp
  | cons item rest ih =>
    intro kept hk s hs
    cases item with
    | jobj kvs =>
      unfold filter_batch_sources at hk
      cases hge : pyGeLikelihood (dictGetD kvs "presentation_likelihood" (.jnum 0)) (mkRat 3 10) with
      | error e => rw [hge] at hk; cases hk
      | ok keep =>
        rw [hge] at hk
        cases htl : filter_batch_sources rest with
        | error e =>
          rw [htl] at hk
          cases hk
        | ok tl =>
          rw [htl] at hk
          simp only [Bind.bind, Except.bind, Except.ok.injEq] at hk
          subst hk
          by_cases hkeep : keep = true
          · subst hkeep
            simp only [if_true] at hs
            rcases List.mem_cons.mp hs with hs | hs
            · subst hs
              unfold pyGeLikelihood dictGetD at hge
              cases hget : dictGet s "presentation_likelihood" with
              | none =>
                rw [hget] at hge
                simp only [Option.getD] at hge
                exact absurd (of_decide_eq_true (Except.ok.inj hge)) (by decide)
              | some j =>
                rw [hget] at hge
                cases j with
                | jnum q =>
                  refine ⟨q, by simp [likelihoodNum, hget], ?_⟩
                  have := Except.ok.inj hge
                  exact of_decide_eq_true this
                | jbool b =>
                  refine ⟨if b then 1 else 0, by simp [likelihoodNum, hget], ?_⟩
                  have := Except.ok.inj hge
                  exact of_decide_eq_true this
                | jnull => cases hge
                | jstr s2 => cases hge
                | jarr a => cases hge
                | jobj o => cases hge
            · exact ih tl htl s hs
          · rw [if_neg hkeep] at hs
            exact ih tl htl s hs
    | jnull => cases hk
    | jbool b => cases hk
    | jnum q => cases hk
    | jstr s2 => cases hk
    | jarr a => cases hk

/-- Every fallback record of a failed batch carries likelihood 0.5. -/
theorem analyze_cell_batch_fallback_floor (cellsBatch : List CatCell) (msg : String) :
    ∀ s ∈ analyze_cell_batch_fallback cellsBatch msg,
      ∃ q, likelihoodNum s = some q ∧ mkRat 3 10 ≤ q := by
  intro s hs
  obtain ⟨c, _, hc⟩ := List.mem_map.mp hs
  refine ⟨mkRat 1 2, ?_, by decide⟩
  rw [← hc]
  rfl

/-- Every record produced by the cell-batch analyzer — kept, filtered
or synthesized — satisfies the 0.3 likelihood floor. -/
theorem analyze_cell_batch_floor (cellsBatch : List CatCell)
    (outcome : CellBatchOutcome) :
    ∀ s ∈ analyze_cell_batch_with_gemini cellsBatch outcome,
      ∃ q, likelihoodNum s = some q ∧ mkRat 3 10 ≤ q := by
  intro s hs
  unfold analyze_cell_batch_with_gemini at hs
  by_cases hempty : cellsBatch.isEmpty
  · rw [if_pos hempty] at hs
    cases hs
  · rw [if_neg hempty] at hs
    cases outcome with
    | raised msg => exact analyze_cell_batch_fallback_floor cellsBatch msg s hs
    | responded result =>
      cases result with
      | jobj kvs =>
        simp only at hs
        cases hba : dictGetD kvs "batch_analysis" (.jarr []) with
        | jarr items =>
          rw [hba] at hs
          simp only at hs
          cases hf : filter_batch_sources items with
          | ok kept =>
            rw [hf] at hs
            exact filter_batch_sources_floor items kept hf s hs
          | error msg =>
            rw [hf] at hs
            exact analyze_cell_batch_fallback_floor cellsBatch msg s hs
        | jnull => rw [hba] at hs; exact analyze_cell_batch_fallback_floor cellsBatch _ s hs
        | jbool b => rw [hba] at hs; exact analyze_cell_batch_fallback_floor cellsBatch _ s hs
        | jnum q => rw [hba] at hs; exact analyze_cell_batch_fallback_floor cellsBatch _ s hs
        | jstr s2 => rw [hba] at hs; exact analyze_cell_batch_fallback_floor cellsBatch _ s hs
        | jobj o => rw [hba] at hs; exact analyze_cell_batch_fallback_floor cellsBatch _ s hs
      | jnull => exact analyze_cell_batch_fallback_floor cellsBatch _ s hs
      | jbool b => exact analyze_cell_batch_fallback_floor cellsBatch _ s hs
      | jnum q => exact analyze_cell_batch_fallback_floor cellsBatch _ s hs
      | jstr s2 => exact analyze_cell_batch_fallback_floor cellsBatch _ s hs
      | jarr a => exact analyze_cell_batch_fallback_floor cellsBatch _ s hs

/-- C10 (confirmed): every potential-source record exposed by the
workbook synthesis over any collection of analyzer batch outputs has a
`presentation_likelihood` of at least 0.3 — parsed records below the
threshold are filtered out and failed-batch fallbacks carry 0.5, and
the synthesis only reorders the merged list. -/
theorem c10_likelihood_floor (batches : List (List CatCell × CellBatchOutcome))
    (sheetAnalyses : List Json) (allSources : List Dict)
    (hall : allSources =
      (batches.map (fun bo => analyze_cell_batch_with_gemini bo.1 bo.2)).flatten) :
    ∀ s ∈ (synthesize_comprehensive_excel_workbook sheetAnalyses allSources).potential_sources,
      ∃ q, likelihoodNum s = some q ∧ mkRat 3 10 ≤ q := by
  intro s hs
  have hmem : s ∈ sortByDesc likelihoodKeyQ allSources := hs
  have hsrc : s ∈ allSources := (mem_sortByDesc _ _ _).mp hmem
  subst hall
  obtain ⟨blist, hblist, hsb⟩ := List.mem_flatten.mp hsrc
  obtain ⟨bo, _, hbo⟩ := List.mem_map.mp hblist
  exact analyze_cell_batch_floor bo.1 bo.2 s (hbo ▸ hsb)

/-- C10 witness: one parsed batch (a 0.9 source kept, a 0.1 source
dropped) merged with one failed batch (fallback 0.5) yields sources all
at or above the floor; the head of the sorted output is the 0.9
record. -/
theorem c10_likelihood_floor_witness :
    ∃ q, likelihoodNum [("cell_reference", .jstr "A1"),
      ("presentation_likelihood", .jnum (mkRat 9 10))] = some q ∧ mkRat 3 10 ≤ q := by
  refine c10_likelihood_floor
    [([demoCatCell], .responded demoBatchAnalysisResponse), ([demoCatCell], .raised "boom")]
    [] _ rfl
    [("cell_reference", .jstr "A1"), ("presentation_likelihood", .jnum (mkRat 9 10))] ?_
  exact List.mem_cons_self _ _

/-- A successful recovery wraps the parsed array under its key. -/
theorem tryRecoveryKey_shape (s : List Char) (k : String) (j : Json)
    (h : tryRecoveryKey s k = some j) : ∃ arr, j = .jobj [(k, arr)] := by
  cases hsearch : searchKeyArray s k.data with
  | none =>
    rw [show tryRecoveryKey s k = none by unfold tryRecoveryKey; rw [hsearch]] at h
    cases h
  | some suffix =>
    have h2 : (match bracketSlice suffix with
               | none => none
               | some content =>
                 match json_loads content with
                 | some arr => some (Json.jobj [(k, arr)])
                 | none => none) = some j := by
      rw [← h]
      unfold tryRecoveryKey
      rw [hsearch]
    cases hslice : bracketSlice suffix with
    | none => rw [hslice] at h2; cases h2
    | some content =>
      rw [hslice] at h2
      dsimp only at h2
      cases hload : json_loads content with
      | none => rw [hload] at h2; cases h2
      | some arr =>
        rw [hload] at h2
        exact ⟨arr, (Option.some.inj h2).symm⟩

/-- The recovery strategies end in a single-keyed object for one of the
three known array keys, or in the fallback structure. -/
theorem json_recovery_strategies_cases (s ctx : List Char) :
    (∃ key arr, key ∈ (["extracted_values", "potential_sources", "batch_analysis"] : List String) ∧
      json_recovery_strategies s ctx = .jobj [(key, arr)]) ∨
    json_recovery_strategies s ctx = get_fallback_structure ctx := by
  unfold json_recovery_strategies
  cases h1 : tryRecoveryKey s "extracted_values" with
  | some j =>
    obtain ⟨arr, harr⟩ := tryRecoveryKey_shape s _ j h1
    exact Or.inl ⟨_, arr, by simp, harr⟩
  | none =>
    cases h2 : tryRecoveryKey s "potential_sources" with
    | some j =>
      obtain ⟨arr, harr⟩ := tryRecoveryKey_shape s _ j h2
      exact Or.inl ⟨_, arr, by simp, harr⟩
    | none =>
      cases h3 : tryRecoveryKey s "batch_analysis" with
      | some j =>
        obtain ⟨arr, harr⟩ := tryRecoveryKey_shape s _ j h3
        exact Or.inl ⟨_, arr, by simp, harr⟩
      | none => exact Or.inr rfl

/-- C2 (corrected): the robust normalizer is total — for every input it
either returns the strict parse of the repaired bounded span, a
recovered single-key array object, or the context's fallback structure,
and for every known-schema context the fallback binds the expected key
to an empty collection next to an error field. (The also-cited legacy
`_parse_json_response` raises instead; see the counterexample.) -/
theorem c2_normalizer_total :
    (∀ s ctx : List Char,
      (∃ span j, find_json_object_span (stripMarkdownFences (pyStrip s)) = some span ∧
        json_loads (clean_json_aggressively span) = some j ∧
        parse_gemini_json_response_robust s ctx = j) ∨
      (∃ key arr,
        key ∈ (["extracted_values", "potential_sources", "batch_analysis"] : List String) ∧
        parse_gemini_json_response_robust s ctx = .jobj [(key, arr)]) ∨
      parse_gemini_json_response_robust s ctx = get_fallback_structure ctx) ∧
    (∀ (ctx : List Char) (key : String), expectedFallbackKey ctx = some key →
      objLookup (get_fallback_structure ctx) key = some (.jarr []) ∧
      objLookup (get_fallback_structure ctx) "error" =
        some (.jstr (String.mk ("JSON parsing failed for ".data ++ ctx)))) := by
  constructor
  · intro s ctx
    cases hspan : find_json_object_span (stripMarkdownFences (pyStrip s)) with
    | none =>
      refine Or.inr (Or.inr ?_)
      simp only [parse_gemini_json_response_robust]
      rw [hspan]
    | some span =>
      cases hload : json_loads (clean_json_aggressively span) with
      | some j =>
        refine Or.inl ⟨span, j, rfl, hload, ?_⟩
        simp only [parse_gemini_json_response_robust]
        rw [hspan]
        show (match json_loads (clean_json_aggressively span) with
              | some j2 => j2
              | none => json_recovery_strategies s ctx) = j
        rw [hload]
      | none =>
        rcases json_recovery_strategies_cases s ctx with ⟨key, arr, hkey, hrec⟩ | hrec
        · refine Or.inr (Or.inl ⟨key, arr, hkey, ?_⟩)
          simp only [parse_gemini_json_response_robust]
          rw [hspan]
          show (match json_loads (clean_json_aggressively span) with
                | some j2 => j2
                | none => json_recovery_strategies s ctx) = Json.jobj [(key, arr)]
          rw [hload]
          exact hrec
        · refine Or.inr (Or.inr ?_)
          simp only [parse_gemini_json_response_robust]
          rw [hspan]
          show (match json_loads (clean_json_aggressively span) with
                | some j2 => j2
                | none => json_recovery_strategies s ctx) = get_fallback_structure ctx
          rw [hload]
          exact hrec
  · intro ctx key hk
    unfold expectedFallbackKey at hk
    unfold get_fallback_structure objLookup
    by_cases h1 : containsSub ctx "page_".data = true
    · rw [if_pos h1] at hk ⊢
      cases hk
      exact ⟨rfl, rfl⟩
    · rw [if_neg h1] at hk ⊢
      by_cases h2 : containsSub ctx "excel_batch".data = true
      · rw [if_pos h2] at hk ⊢
        cases hk
        exact ⟨rfl, rfl⟩
      · rw [if_neg h2] at hk ⊢
        by_cases h3 : containsSub (lowerChars ctx) "mapping".data = true
        · rw [if_pos h3] at hk ⊢
          cases hk
          exact ⟨rfl, rfl⟩
        · rw [if_neg h3] at hk ⊢
          by_cases h4 : containsSub (lowerChars ctx) "audit".data = true
          · rw [if_pos h4] at hk ⊢
            cases hk
            exact ⟨rfl, rfl⟩
          · rw [if_neg h4] at hk
            cases hk

/-- C2 witness: unparseable text in an audit-batch context lands on the
fallback structure whose `batch_results` is the empty collection beside
the error field. -/
theorem c2_normalizer_total_witness :
    parse_gemini_json_response_robust "nope".data "direct_audit_batch_1".data =
      get_fallback_structure "direct_audit_batch_1".data ∧
    objLookup (get_fallback_structure "direct_audit_batch_1".data) "batch_results" =
      some (.jarr []) ∧
    objLookup (get_fallback_structure "direct_audit_batch_1".data) "error" =
      some (.jstr (String.mk ("JSON parsing failed for ".data ++ "direct_audit_batch_1".data))) := by
  refine ⟨by rfl, ?_, ?_⟩
  · exact (c2_normalizer_total.2 "direct_audit_batch_1".data "batch_results" (by rfl)).1
  · exact (c2_normalizer_total.2 "direct_audit_batch_1".data "batch_results" (by rfl)).2

/-- C2 counterexample: the legacy normalizer `_parse_json_response`
raises `ValueError` past its boundary on an unparseable string instead
of returning a fallback structure. -/
theorem c2_counterexample :
    parse_json_response "zzz".data = .error "Invalid JSON response from AI" := by
  rfl

/-- C6 (confirmed): whenever the staged pipeline finds a bounded brace
span and the canonically repaired span parses, the normalizer's output
is exactly that parse — the round-trip law between the repaired text
and the returned structure. -/
theorem c6_round_trip (s ctx span : List Char) (j : Json)
    (hspan : find_json_object_span (stripMarkdownFences (pyStrip s)) = some span)
    (hparse : json_loads (clean_json_aggressively span) = some j) :
    parse_gemini_json_response_robust s ctx = j := by
  simp only [parse_gemini_json_response_robust]
  rw [hspan]
  show (match json_loads (clean_json_aggressively span) with
        | some j2 => j2
        | none => json_recovery_strategies s ctx) = j
  rw [hparse]

/-- C6 witness: the fenced, single-quoted, trailing-comma payload
parses — after fence stripping, brace bounding and the five repairs —
to exactly the structure the normalizer returns. -/
theorem c6_round_trip_witness :
    parse_gemini_json_response_robust demoFencedResponse "page_1".data = demoFencedParsed :=
  c6_round_trip demoFencedResponse "page_1".data demoFencedSpan demoFencedParsed
    (by rfl) (by rfl)

end Veritas
